import Mathlib

/-!
Verification of the block-device convergence agent
(`flocker/node/agents/blockdevice.py`) against its specification.

Python `unicode` strings are embedded as `List Char`, Python `dict`s as
association lists with insert-or-overwrite semantics, and Python `set`s
as duplicate-free lists (iteration order of a Python set is unspecified;
the claims under verification are order-insensitive).
-/

set_option autoImplicit false

namespace Flocker

/-- Python `unicode` strings, embedded as lists of characters. -/
abbrev PyStr := List Char

/-- Whitespace characters recognised by Python `str.strip` (ASCII subset). -/
def pyIsSpace (c : Char) : Bool :=
  c = ' ' ∨ c = '\t' ∨ c = '\n' ∨ c = '\r' ∨ c = '\x0b' ∨ c = '\x0c'

/-- Python `str.lstrip()`. -/
def pyLstrip (s : PyStr) : PyStr := s.dropWhile pyIsSpace

/-- Python `str.rstrip()`. -/
def pyRstrip (s : PyStr) : PyStr := (s.reverse.dropWhile pyIsSpace).reverse

/-- Python `str.strip()`. -/
def pyStrip (s : PyStr) : PyStr := pyRstrip (pyLstrip s)

/-- Helper for `pySplitlines`; `acc` holds the current line reversed and
the boolean records whether the previous character was a carriage return
(so that the `\n` of a `\r\n` pair does not open a further line). -/
def pySplitlinesAux : PyStr → PyStr → Bool → List PyStr
  | [], acc, _ => if acc = [] then [] else [acc.reverse]
  | c :: rest, acc, afterCR =>
    if c = '\n' then
      if afterCR then pySplitlinesAux rest [] false
      else acc.reverse :: pySplitlinesAux rest [] false
    else if c = '\r' then acc.reverse :: pySplitlinesAux rest [] true
    else pySplitlinesAux rest (c :: acc) false

/-- Python `str.splitlines()` restricted to the line endings that matter
here (`\n`, `\r`, `\r\n`). -/
def pySplitlines (s : PyStr) : List PyStr := pySplitlinesAux s [] false

/-- Split a string at the first occurrence of `sep`, if any. -/
def splitFirst (sep : Char) : PyStr → Option (PyStr × PyStr)
  | [] => none
  | c :: rest =>
    if c = sep then some ([], rest)
    else (splitFirst sep rest).map (fun p => (c :: p.1, p.2))

/-- Python `str.split(sep, maxsplit)` for a single-character separator. -/
def pySplitMax (sep : Char) : Nat → PyStr → List PyStr
  | 0, s => [s]
  | m + 1, s =>
    match splitFirst sep s with
    | none => [s]
    | some (pre, post) => pre :: pySplitMax sep m post

/-- First index at which `sub` occurs in the string, scanning left to
right (Python `str.find`, with absence encoded as `none`). -/
def pyFindSubFrom (sub : PyStr) : PyStr → Option Nat
  | [] => if sub.isPrefixOf [] then some 0 else none
  | c :: rest =>
    if sub.isPrefixOf (c :: rest) then some 0
    else (pyFindSubFrom sub rest).map (· + 1)

/-- Python `str.find(sub)`; `none` stands for the C-style `-1`. -/
def pyFindSub (s sub : PyStr) : Option Nat := pyFindSubFrom sub s

/-- Python `str.rfind(sub)`: index of the last occurrence.  An occurrence
of `sub` at position `p` of `s` is an occurrence of `sub.reverse` at
position `s.length - sub.length - p` of `s.reverse`, so the last
occurrence is recovered from the first occurrence in the reversal. -/
def pyRfindSub (s sub : PyStr) : Option Nat :=
  (pyFindSubFrom sub.reverse s.reverse).map (fun i => s.length - sub.length - i)

/-- Python `dict` assignment `d[k] = v`: overwrite the existing entry for
`k` in place, or append a fresh entry. -/
def dictInsert {α β : Type} [DecidableEq α] (k : α) (v : β) :
    List (α × β) → List (α × β)
  | [] => [(k, v)]
  | (k', v') :: rest =>
    if k' = k then (k, v) :: rest else (k', v') :: dictInsert k v rest

/-- Python `dict.get(k)`. -/
def dictGet {α β : Type} [DecidableEq α] (k : α) (d : List (α × β)) : Option β :=
  (d.find? (fun p => p.1 = k)).map Prod.snd

/-- Python `del d[k]`. -/
def dictRemove {α β : Type} [DecidableEq α] (k : α) (d : List (α × β)) :
    List (α × β) :=
  d.filter (fun p => p.1 ≠ k)

/-- Python `set(xs)`: the distinct elements, keeping first occurrences. -/
def pySet {α : Type} [DecidableEq α] : List α → List α
  | [] => []
  | a :: rest => a :: (pySet rest).filter (fun b => b ≠ a)

theorem mem_pySet {α : Type} [DecidableEq α] {a : α} {l : List α} :
    a ∈ pySet l ↔ a ∈ l := by
  induction l with
  | nil => simp [pySet]
  | cons b rest ih =>
    by_cases hab : a = b
    · subst hab; simp [pySet]
    · simp [pySet, List.mem_filter, hab, ih]

theorem nodup_pySet {α : Type} [DecidableEq α] (l : List α) : (pySet l).Nodup := by
  induction l with
  | nil => simp [pySet]
  | cons b rest ih =>
    refine List.Nodup.cons ?_ (List.Nodup.filter _ ih)
    intro hmem
    rcases List.mem_filter.mp hmem with ⟨-, hne⟩
    simp at hne

/-! ## Data model

`Dataset`, `Manifestation`, `Node`, `NodeState`, `Deployment`,
`DeploymentState` and `NonManifestDatasets` are imported by the source
from `flocker.control`, which is not part of the sources under
verification; they are modelled from the spec (spec §3). -/

/-- A filesystem path, as a list of path segments (`FilePath` values in
the source are only built with `child` and `descendant` and compared for
equality, which this representation captures). -/
abbrev FPath := List PyStr

/-- Modelled from the spec: `flocker.control.Dataset` (spec §3): logical
identity (UUID), optional `maximum_size`, and a `deleted` flag.  UUIDs
are embedded as their canonical strings, so the `UUID(...)` conversions
in the source are identities. -/
structure Dataset where
  dataset_id : PyStr
  maximum_size : Option Nat
  deleted : Bool
deriving DecidableEq

/-- Modelled from the spec: `flocker.control.Manifestation` (spec §3):
the assertion that a dataset is locally present; carries the dataset and
a `primary` boolean. -/
structure Manifestation where
  dataset : Dataset
  primary : Bool
deriving DecidableEq

/-- Modelled from the spec: a configured node, holding the mapping
`dataset_id → Manifestation` for this node (spec §3, §4.5). -/
structure Node where
  hostname : PyStr
  manifestations : List (PyStr × Manifestation)
deriving DecidableEq

/-- Modelled from the spec: the desired configuration, a collection of
configured nodes; `get_node` returns the node configured for a hostname,
or an empty node when none is. -/
structure Deployment where
  nodes : List Node
deriving DecidableEq

def Deployment.get_node (d : Deployment) (hostname : PyStr) : Node :=
  (d.nodes.find? (fun n => n.hostname = hostname)).getD
    { hostname := hostname, manifestations := [] }

/-- Modelled from the spec: `flocker.control.NodeState` (spec §3):
per-node observed state — hostname, a mapping `dataset_id →
Manifestation`, and a mapping `dataset_id → mountpoint`. -/
structure NodeState where
  hostname : PyStr
  manifestations : List (PyStr × Manifestation)
  paths : List (PyStr × FPath)
deriving DecidableEq

/-- Modelled from the spec: the observed cluster state; `get_node`
returns this node's observed state, or an empty state when absent. -/
structure DeploymentState where
  nodes : List NodeState
deriving DecidableEq

def DeploymentState.get_node (d : DeploymentState) (hostname : PyStr) : NodeState :=
  (d.nodes.find? (fun n => n.hostname = hostname)).getD
    { hostname := hostname, manifestations := [], paths := [] }

/-- Modelled from the spec: `flocker.control.NonManifestDatasets`
(spec §3): datasets known to the provider but present on no node. -/
structure NonManifestDatasets where
  datasets : List (PyStr × Dataset)
deriving DecidableEq

/-- The volume record (`BlockDeviceVolume` in the source). -/
structure BlockDeviceVolume where
  blockdevice_id : PyStr
  size : Nat
  host : Option PyStr
  dataset_id : PyStr
deriving DecidableEq

/-- The planner's leaf state changes.  The composite combinators
`Sequentially` and `InParallel` are imported from `flocker.node` in the
source; the planner only ever builds a single `InParallel` of these two
leaf kinds, which is modelled by the `InParallel` wrapper below, and the
sequential composition used by `DestroyBlockDeviceDataset.run` is
modelled by `Sequentially.run` further down. -/
inductive StateChange where
  | createBlockDeviceDataset (dataset : Dataset) (mountpoint : FPath)
  | destroyBlockDeviceDataset (dataset_id : PyStr)
deriving DecidableEq

/-- The `InParallel` composite, as a value (its children). -/
structure InParallel where
  changes : List StateChange
deriving DecidableEq

/-! ## The loopback provider

`LoopbackBlockDeviceAPI` simulates a block-device service with sparse
files under `root_path/unattached/<id>` and `root_path/attached/<host>/<id>`
plus the kernel's loop-device table.  The embedding carries that state
explicitly in a `LoopWorld`: the two directory trees as association
lists mapping file names to file sizes, the loop-device table as the
association `device path ↦ backing file` that `losetup --all` reports
(`_losetup_list` is embedded as reading this table), a counter for the
next free `/dev/loopN` name handed out by `losetup --find`, the host's
mount table, the set of existing directories, and a ghost trace of the
operations performed (used to state ordering properties). -/

deriving instance DecidableEq for Except

/-- Python `dict`-style in-place update of the value stored at a key. -/
def dictModify {α β : Type} [DecidableEq α] (k : α) (f : β → β) :
    List (α × β) → List (α × β)
  | [] => []
  | (k', v) :: rest =>
    if k' = k then (k', f v) :: rest else (k', v) :: dictModify k f rest

/-- Operations recorded in the ghost trace. -/
inductive Event where
  | createVolume (dataset_id : PyStr) (size : Nat)
  | attachVolume (blockdevice_id : PyStr) (host : PyStr)
  | getDevicePath (blockdevice_id : PyStr)
  | mkfs (fstype : PyStr) (device : FPath)
  | makedirs (p : FPath)
  | mount (device : FPath) (mountpoint : FPath)
deriving DecidableEq

/-- Errors surfaced by the embedded operations: the three volume
exceptions of the source, plus the host-level failures (`OSError` from
file operations, `AttributeError` from calling `.path` on `None`,
`TypeError` from `truncate(None)`, and a non-zero subprocess exit). -/
inductive Err where
  | unknownVolume (blockdevice_id : PyStr)
  | alreadyAttachedVolume (blockdevice_id : PyStr)
  | unattachedVolume (blockdevice_id : PyStr)
  | osError
  | attributeError
  | typeError
  | processError
deriving DecidableEq

/-- The explicit state acted upon by the loopback provider and the host
utilities. -/
structure LoopWorld where
  unattached : List (PyStr × Nat)
  attached : List (PyStr × List (PyStr × Nat))
  loop_table : List (FPath × FPath)
  next_loop : Nat
  mounts : List (FPath × FPath)
  dirs : List FPath
  events : List Event
deriving DecidableEq

/-- The provider object: its only construction parameter. -/
structure LoopbackBlockDeviceAPI where
  root_path : FPath
deriving DecidableEq

def LoopbackBlockDeviceAPI.unattachedPath (api : LoopbackBlockDeviceAPI)
    (blockdevice_id : PyStr) : FPath :=
  api.root_path ++ ["unattached".toList, blockdevice_id]

def LoopbackBlockDeviceAPI.attachedPath (api : LoopbackBlockDeviceAPI)
    (host blockdevice_id : PyStr) : FPath :=
  api.root_path ++ ["attached".toList, host, blockdevice_id]

/-- The `/dev/loopN` name allocated by `losetup --find` (embedded as a
fresh-name counter). -/
def loopDevice (n : Nat) : FPath :=
  ["dev".toList, "loop".toList ++ (Nat.repr n).toList]

/-- `_blockdevicevolume_from_dataset_id`. -/
def _blockdevicevolume_from_dataset_id (dataset_id : PyStr) (size : Nat)
    (host : Option PyStr) : BlockDeviceVolume :=
  { size := size, host := host, dataset_id := dataset_id,
    blockdevice_id := "block-".toList ++ dataset_id }

/-- `_blockdevicevolume_from_blockdevice_id`: strips the `block-` prefix;
UUID parsing is embedded as the identity on the canonical string. -/
def _blockdevicevolume_from_blockdevice_id (blockdevice_id : PyStr) (size : Nat)
    (host : Option PyStr) : BlockDeviceVolume :=
  { dataset_id := blockdevice_id.drop 6, size := size, host := host,
    blockdevice_id := blockdevice_id }

/-- `LoopbackBlockDeviceAPI.list_volumes`: the files of `unattached/`
(host absent) followed by the files of each `attached/<host>/`
directory. -/
def LoopbackBlockDeviceAPI.list_volumes (_api : LoopbackBlockDeviceAPI)
    (w : LoopWorld) : List BlockDeviceVolume :=
  (w.unattached.map (fun p =>
    _blockdevicevolume_from_blockdevice_id p.1 p.2 none)) ++
  (w.attached.flatMap (fun hd =>
    hd.2.map (fun p => _blockdevicevolume_from_blockdevice_id p.1 p.2 (some hd.1))))

/-- `LoopbackBlockDeviceAPI._get`: scan `list_volumes` for the first
volume with the given identifier, raising `UnknownVolume` otherwise. -/
def LoopbackBlockDeviceAPI._get (api : LoopbackBlockDeviceAPI)
    (blockdevice_id : PyStr) (w : LoopWorld) : Except Err BlockDeviceVolume :=
  match (api.list_volumes w).find? (fun v => v.blockdevice_id = blockdevice_id) with
  | some volume => .ok volume
  | none => .error (.unknownVolume blockdevice_id)

/-- `LoopbackBlockDeviceAPI.create_volume`: create the sparse file
`unattached/<blockdevice_id>` truncated to `size` (overwriting any
existing file of that name, as `open('wb')` does). -/
def LoopbackBlockDeviceAPI.create_volume (_api : LoopbackBlockDeviceAPI)
    (dataset_id : PyStr) (size : Nat) (w : LoopWorld) :
    BlockDeviceVolume × LoopWorld :=
  let volume := _blockdevicevolume_from_dataset_id dataset_id size none
  (volume,
   { w with unattached := dictInsert volume.blockdevice_id size w.unattached,
            events := w.events ++ [.createVolume dataset_id size] })

/-- `LoopbackBlockDeviceAPI.destroy_volume`: locate the volume, then
remove `unattached/<id>`; removing a file that does not exist (as for an
attached volume, whose backing file lives under `attached/`) raises
`OSError`. -/
def LoopbackBlockDeviceAPI.destroy_volume (api : LoopbackBlockDeviceAPI)
    (blockdevice_id : PyStr) (w : LoopWorld) : Except Err LoopWorld := do
  let volume ← api._get blockdevice_id w
  match dictGet volume.blockdevice_id w.unattached with
  | some _ => .ok { w with unattached := dictRemove volume.blockdevice_id w.unattached }
  | none => .error .osError

/-- `_device_for_path`: the first loop device whose backing file equals
the expected path, reading the loop-device table (`_losetup_list`). -/
def _device_for_path (w : LoopWorld) (expected_backing_file : FPath) : Option FPath :=
  ((w.loop_table.find? (fun p => p.2 = expected_backing_file)).map Prod.fst)

/-- `LoopbackBlockDeviceAPI.get_device_path`: `UnknownVolume` when no
volume has the identifier, `UnattachedVolume` when it is unattached, and
otherwise the loop device whose backing file is `attached/<host>/<id>`
(`none` when the file has no loop device). -/
def LoopbackBlockDeviceAPI.get_device_path (api : LoopbackBlockDeviceAPI)
    (blockdevice_id : PyStr) (w : LoopWorld) :
    Except Err (Option FPath × LoopWorld) := do
  let volume ← api._get blockdevice_id w
  match volume.host with
  | none => .error (.unattachedVolume blockdevice_id)
  | some host =>
    .ok (_device_for_path w (api.attachedPath host volume.blockdevice_id),
         { w with events := w.events ++ [.getDevicePath blockdevice_id] })

/-- `LoopbackBlockDeviceAPI.attach_volume`: for an unattached volume,
move `unattached/<id>` to `attached/<host>/<id>` (creating the host
directory if needed), bind the next free loop device to the file
(`losetup --find`), and return the volume with `host` set; raise
`AlreadyAttachedVolume` otherwise. -/
def LoopbackBlockDeviceAPI.attach_volume (api : LoopbackBlockDeviceAPI)
    (blockdevice_id host : PyStr) (w : LoopWorld) :
    Except Err (BlockDeviceVolume × LoopWorld) := do
  let volume ← api._get blockdevice_id w
  match volume.host with
  | none =>
    match dictGet blockdevice_id w.unattached with
    | none => .error .osError
    | some size =>
      let attached1 :=
        if (w.attached.any (fun hd => hd.1 = host)) then w.attached
        else w.attached ++ [(host, [])]
      let attached2 := dictModify host (dictInsert blockdevice_id size) attached1
      .ok ({ volume with host := some host },
        { w with unattached := dictRemove blockdevice_id w.unattached,
                 attached := attached2,
                 loop_table := w.loop_table ++
                   [(loopDevice w.next_loop, api.attachedPath host blockdevice_id)],
                 next_loop := w.next_loop + 1,
                 events := w.events ++ [.attachVolume blockdevice_id host] })
  | some _ => .error (.alreadyAttachedVolume blockdevice_id)

/-- `LoopbackBlockDeviceAPI.detach_volume`: for an attached volume,
release its loop device (`losetup --detach`, removing the association)
and move the file back to `unattached/`; raise `UnattachedVolume`
otherwise.  Calling `.path` on the `None` returned by `get_device_path`
when no loop device exists raises `AttributeError`. -/
def LoopbackBlockDeviceAPI.detach_volume (api : LoopbackBlockDeviceAPI)
    (blockdevice_id : PyStr) (w : LoopWorld) : Except Err LoopWorld := do
  let volume ← api._get blockdevice_id w
  match volume.host with
  | none => .error (.unattachedVolume blockdevice_id)
  | some host => do
    let r ← api.get_device_path blockdevice_id w
    match r.1 with
    | none => .error .attributeError
    | some device =>
      let w1 := r.2
      let w2 := { w1 with loop_table := w1.loop_table.filter (fun p => p.1 ≠ device) }
      match (dictGet host w2.attached).bind (fun files => dictGet blockdevice_id files) with
      | none => .error .osError
      | some size =>
        .ok { w2 with
          attached := dictModify host (dictRemove blockdevice_id) w2.attached,
          unattached := dictInsert blockdevice_id size w2.unattached }

/-- The deployer record (`BlockDeviceDeployer` in the source):
hostname, the block-device API (the loopback provider is the concrete
implementation shipped in the source), and the mount root. -/
structure BlockDeviceDeployer where
  hostname : PyStr
  block_device_api : LoopbackBlockDeviceAPI
  mountroot : FPath
deriving DecidableEq

/-- `BlockDeviceDeployer._mountpath_for_manifestation`:
`mountroot.child(dataset_id)`. -/
def BlockDeviceDeployer._mountpath_for_manifestation
    (deployer : BlockDeviceDeployer) (manifestation : Manifestation) : FPath :=
  deployer.mountroot ++ [manifestation.dataset.dataset_id]

/-- `BlockDeviceDeployer._calculate_deletes`: one
`DestroyBlockDeviceDataset` per configured manifestation whose dataset
has `deleted = True` (regardless of whether a matching volume exists). -/
def BlockDeviceDeployer._calculate_deletes
    (configured_manifestations : List (PyStr × Manifestation)) : List StateChange :=
  let delete_dataset_ids := pySet
    (((configured_manifestations.map Prod.snd).filter
        (fun m => m.dataset.deleted)).map (fun m => m.dataset.dataset_id))
  delete_dataset_ids.map (fun dataset_id =>
    StateChange.destroyBlockDeviceDataset dataset_id)

/-- `BlockDeviceDeployer.calculate_changes`.  Python `set`s appear as
deduplicated lists (`pySet`); the dictionary indexing
`configured_manifestations[dataset_id]` is embedded as `dictGet` inside
`filterMap` (the source presumes every such key is present, which holds
whenever manifestation keys equal their datasets' ids). -/
def BlockDeviceDeployer.calculate_changes (deployer : BlockDeviceDeployer)
    (configuration : Deployment) (cluster_state : DeploymentState) : InParallel :=
  let this_node_config := configuration.get_node deployer.hostname
  let configured_manifestations := this_node_config.manifestations
  let configured_dataset_ids := pySet
    (((configured_manifestations.map Prod.snd).filter
        (fun m => ! m.dataset.deleted)).map (fun m => m.dataset.dataset_id))
  let local_state := cluster_state.get_node deployer.hostname
  let local_dataset_ids := local_state.manifestations.map Prod.fst
  let to_create_ids := configured_dataset_ids.filter
    (fun dataset_id => dataset_id ∉ local_dataset_ids)
  let manifestations_to_create := pySet
    (to_create_ids.filterMap (fun dataset_id =>
      dictGet dataset_id configured_manifestations))
  let creates := manifestations_to_create.map (fun m =>
    StateChange.createBlockDeviceDataset m.dataset
      (deployer._mountpath_for_manifestation m))
  { changes := creates ++ BlockDeviceDeployer._calculate_deletes configured_manifestations }


theorem dictGet_nil {α β : Type} [DecidableEq α] (k : α) :
    dictGet k ([] : List (α × β)) = none := rfl

theorem dictGet_cons {α β : Type} [DecidableEq α] (k k' : α) (v' : β)
    (l : List (α × β)) :
    dictGet k ((k', v') :: l) = if k' = k then some v' else dictGet k l := by
  by_cases h : k' = k
  · simp [dictGet, List.find?_cons_of_pos, h]
  · simp [dictGet, List.find?_cons_of_neg, h]

theorem dictGet_eq_some_iff_mem {α β : Type} [DecidableEq α] {l : List (α × β)}
    (h : (l.map Prod.fst).Nodup) {k : α} {v : β} :
    dictGet k l = some v ↔ (k, v) ∈ l := by
  induction l with
  | nil => simp [dictGet]
  | cons p rest ih =>
    obtain ⟨k', v'⟩ := p
    simp only [List.map_cons, List.nodup_cons, List.mem_map] at h
    rw [dictGet_cons]
    by_cases hk : k' = k
    · subst hk
      simp only [if_pos rfl, List.mem_cons, Prod.mk.injEq, true_and]
      constructor
      · intro hv
        exact Or.inl (Option.some.inj hv).symm
      · rintro (hv | hm)
        · simp [hv]
        · exact absurd ⟨(k', v), hm, rfl⟩ h.1
    · rw [if_neg hk, ih h.2]
      simp only [List.mem_cons, Prod.mk.injEq]
      constructor
      · exact fun hm => Or.inr hm
      · rintro (⟨he, -⟩ | hm)
        · exact absurd he.symm hk
        · exact hm

theorem calculate_deletes_mem (manifs : List (PyStr × Manifestation))
    (c : StateChange) :
    c ∈ BlockDeviceDeployer._calculate_deletes manifs ↔
      ∃ p ∈ manifs, p.2.dataset.deleted = true ∧
        c = StateChange.destroyBlockDeviceDataset p.2.dataset.dataset_id := by
  unfold BlockDeviceDeployer._calculate_deletes
  simp only
  constructor
  · intro hc
    obtain ⟨did, hdid, hcd⟩ := List.mem_map.mp hc
    obtain ⟨m, hm, hid⟩ := List.mem_map.mp (mem_pySet.mp hdid)
    obtain ⟨hmv, hmdel⟩ := List.mem_filter.mp hm
    obtain ⟨p, hp, hp2⟩ := List.mem_map.mp hmv
    refine ⟨p, hp, by rw [hp2]; exact hmdel, ?_⟩
    rw [← hcd, ← hid, hp2]
  · rintro ⟨p, hp, hdel, rfl⟩
    refine List.mem_map.mpr ⟨p.2.dataset.dataset_id, ?_, rfl⟩
    refine mem_pySet.mpr (List.mem_map.mpr ⟨p.2, ?_, rfl⟩)
    exact List.mem_filter.mpr ⟨List.mem_map.mpr ⟨p, hp, rfl⟩, hdel⟩

/-- Claim C1: for every configuration and cluster state (with the
configuration's manifestation dictionary well formed: distinct keys, each
key equal to its manifestation's dataset id), `calculate_changes` returns
an `InParallel` whose children are exactly one `CreateBlockDeviceDataset`
(with mountpoint `mountroot/dataset_id`) for each dataset configured
non-deleted for this node whose dataset id is not among the observed
manifestations of this node, plus one `DestroyBlockDeviceDataset` for
each dataset whose configured manifestation has `deleted = true`
(whether or not a matching volume or manifestation exists), and nothing
else. -/
theorem calculate_changes_plan (deployer : BlockDeviceDeployer)
    (configuration : Deployment) (cluster_state : DeploymentState)
    (hnd : ((configuration.get_node deployer.hostname).manifestations.map Prod.fst).Nodup)
    (hinv : ∀ p ∈ (configuration.get_node deployer.hostname).manifestations,
      p.2.dataset.dataset_id = p.1) :
    (deployer.calculate_changes configuration cluster_state).changes.Nodup ∧
    ∀ c, c ∈ (deployer.calculate_changes configuration cluster_state).changes ↔
      ((∃ p ∈ (configuration.get_node deployer.hostname).manifestations,
          p.2.dataset.deleted = false ∧
          p.2.dataset.dataset_id ∉
            (cluster_state.get_node deployer.hostname).manifestations.map Prod.fst ∧
          c = StateChange.createBlockDeviceDataset p.2.dataset
            (deployer.mountroot ++ [p.2.dataset.dataset_id])) ∨
       (∃ p ∈ (configuration.get_node deployer.hostname).manifestations,
          p.2.dataset.deleted = true ∧
          c = StateChange.destroyBlockDeviceDataset p.2.dataset.dataset_id)) := by
  have hchanges : (deployer.calculate_changes configuration cluster_state).changes =
      (pySet ((((pySet ((((configuration.get_node deployer.hostname).manifestations.map
              Prod.snd).filter (fun m' => ! m'.dataset.deleted)).map
                (fun m' => m'.dataset.dataset_id))).filter
            (fun dataset_id => dataset_id ∉
              ((cluster_state.get_node deployer.hostname).manifestations.map
                Prod.fst)))).filterMap
              (fun dataset_id => dictGet dataset_id
                (configuration.get_node deployer.hostname).manifestations))).map
        (fun m => StateChange.createBlockDeviceDataset m.dataset
          (deployer._mountpath_for_manifestation m)) ++
      BlockDeviceDeployer._calculate_deletes
        (configuration.get_node deployer.hostname).manifestations := rfl
  have hcreate_mem : ∀ m : Manifestation,
      m ∈ pySet ((((pySet ((((configuration.get_node deployer.hostname).manifestations.map
              Prod.snd).filter (fun m' => ! m'.dataset.deleted)).map
                (fun m' => m'.dataset.dataset_id))).filter
            (fun dataset_id => dataset_id ∉
              ((cluster_state.get_node deployer.hostname).manifestations.map
                Prod.fst)))).filterMap
              (fun dataset_id => dictGet dataset_id
                (configuration.get_node deployer.hostname).manifestations)) ↔
      ∃ k, (k, m) ∈ (configuration.get_node deployer.hostname).manifestations ∧
        m.dataset.deleted = false ∧ m.dataset.dataset_id = k ∧
        k ∉ (cluster_state.get_node deployer.hostname).manifestations.map Prod.fst := by
    intro m
    constructor
    · intro hm
      obtain ⟨did, hdid, hget⟩ := List.mem_filterMap.mp (mem_pySet.mp hm)
      obtain ⟨hdid1, hdid2⟩ := List.mem_filter.mp hdid
      obtain ⟨m', hm', hid⟩ := List.mem_map.mp (mem_pySet.mp hdid1)
      obtain ⟨hm'v, hm'del⟩ := List.mem_filter.mp hm'
      obtain ⟨p', hp', hp'2⟩ := List.mem_map.mp hm'v
      have hmem := (dictGet_eq_some_iff_mem hnd).mp hget
      have hidm : m.dataset.dataset_id = did := hinv (did, m) hmem
      have hp1 : p'.1 = did := by
        rw [← hid, ← hp'2, hinv p' hp']
      have hpmem : (did, m') ∈ (configuration.get_node deployer.hostname).manifestations := by
        have : p' = (did, m') := by
          obtain ⟨a, b⟩ := p'
          simp only at hp'2 hp1
          rw [Prod.mk.injEq]
          exact ⟨hp1, hp'2⟩
        rw [← this]
        exact hp'
      have hmm : m' = m := by
        have h2 := (dictGet_eq_some_iff_mem hnd (k := did) (v := m')).mpr hpmem
        rw [hget] at h2
        exact (Option.some.inj h2).symm
      refine ⟨did, hmem, ?_, hidm, ?_⟩
      · rw [← hmm]
        simpa using hm'del
      · exact of_decide_eq_true hdid2
    · rintro ⟨k, hmem, hdel, hid, hobs⟩
      refine mem_pySet.mpr (List.mem_filterMap.mpr
        ⟨k, ?_, (dictGet_eq_some_iff_mem hnd).mpr hmem⟩)
      refine List.mem_filter.mpr ⟨?_, decide_eq_true hobs⟩
      refine mem_pySet.mpr (List.mem_map.mpr ⟨m, ?_, hid⟩)
      refine List.mem_filter.mpr ⟨List.mem_map.mpr ⟨(k, m), hmem, rfl⟩, by simp [hdel]⟩
  constructor
  · rw [hchanges]
    refine List.Nodup.append ?_ ?_ ?_
    · refine List.Nodup.map_on ?_ (nodup_pySet _)
      intro x hx y hy hxy
      obtain ⟨kx, hkx, -, hidx, -⟩ := (hcreate_mem x).mp hx
      obtain ⟨ky, hky, -, hidy, -⟩ := (hcreate_mem y).mp hy
      have hds : x.dataset = y.dataset := by
        injection hxy
      have hkk : kx = ky := by rw [← hidx, ← hidy, hds]
      subst hkk
      have h1 := (dictGet_eq_some_iff_mem hnd).mpr hkx
      have h2 := (dictGet_eq_some_iff_mem hnd).mpr hky
      rw [h1] at h2
      exact Option.some.inj h2
    · unfold BlockDeviceDeployer._calculate_deletes
      simp only
      refine List.Nodup.map ?_ (nodup_pySet _)
      intro a b hab
      injection hab
    · intro c hc hc'
      obtain ⟨m, -, hcm⟩ := List.mem_map.mp hc
      obtain ⟨p, -, -, hcd⟩ := (calculate_deletes_mem _ c).mp hc'
      rw [← hcm] at hcd
      exact StateChange.noConfusion hcd
  · intro c
    rw [hchanges, List.mem_append]
    constructor
    · rintro (hc | hc)
      · left
        obtain ⟨m, hm, hcm⟩ := List.mem_map.mp hc
        obtain ⟨k, hmem, hdel, hid, hobs⟩ := (hcreate_mem m).mp hm
        refine ⟨(k, m), hmem, hdel, ?_, ?_⟩
        · simpa only [hid] using hobs
        · rw [← hcm]
          unfold BlockDeviceDeployer._mountpath_for_manifestation
          rfl
      · right
        exact (calculate_deletes_mem _ c).mp hc
    · rintro (⟨p, hp, hdel, hobs, hc⟩ | hdc)
      · left
        refine List.mem_map.mpr ⟨p.2, ?_, ?_⟩
        · refine (hcreate_mem p.2).mpr ⟨p.1, ?_, hdel, hinv p hp, ?_⟩
          · obtain ⟨a, b⟩ := p
            exact hp
          · rw [← hinv p hp]
            exact hobs
        · rw [hc]
          unfold BlockDeviceDeployer._mountpath_for_manifestation
          rfl
      · right
        exact (calculate_deletes_mem _ c).mpr hdc

/-- Concrete planner inputs for the claim C1 witness: dataset `a`
configured non-deleted and unobserved, dataset `b` configured deleted,
dataset `c` configured non-deleted but already observed locally. -/
def exampleManifestA : Manifestation :=
  { dataset := { dataset_id := "a".toList, maximum_size := some 5, deleted := false },
    primary := true }

def exampleManifestB : Manifestation :=
  { dataset := { dataset_id := "b".toList, maximum_size := some 5, deleted := true },
    primary := true }

def exampleManifestC : Manifestation :=
  { dataset := { dataset_id := "c".toList, maximum_size := some 5, deleted := false },
    primary := true }

def exampleConfiguration : Deployment :=
  { nodes := [{ hostname := "node1".toList,
                manifestations := [("a".toList, exampleManifestA),
                                   ("b".toList, exampleManifestB),
                                   ("c".toList, exampleManifestC)] }] }

def exampleClusterState : DeploymentState :=
  { nodes := [{ hostname := "node1".toList,
                manifestations := [("c".toList, exampleManifestC)],
                paths := [] }] }

def exampleDeployer : BlockDeviceDeployer :=
  { hostname := "node1".toList,
    block_device_api := { root_path := ["tmp".toList, "lb".toList] },
    mountroot := ["flocker".toList] }

/-- Witness for claim C1, instantiating `calculate_changes_plan` at a
concrete configuration and state. -/
theorem calculate_changes_plan_witness :
    (exampleDeployer.calculate_changes exampleConfiguration exampleClusterState).changes.Nodup ∧
    StateChange.destroyBlockDeviceDataset "b".toList ∈
      (exampleDeployer.calculate_changes exampleConfiguration exampleClusterState).changes ∧
    StateChange.createBlockDeviceDataset exampleManifestA.dataset
        (["flocker".toList, "a".toList]) ∈
      (exampleDeployer.calculate_changes exampleConfiguration exampleClusterState).changes := by
  have h := calculate_changes_plan exampleDeployer exampleConfiguration exampleClusterState
    (by decide) (by decide)
  refine ⟨h.1, ?_, ?_⟩
  · refine (h.2 _).mpr (Or.inr ⟨("b".toList, exampleManifestB), by decide, by decide, ?_⟩)
    rfl
  · refine (h.2 _).mpr (Or.inl ⟨("a".toList, exampleManifestA), by decide, by decide, by decide, ?_⟩)
    rfl

/-! ## The losetup output parser -/

/-- Twisted `FilePath` as used by the parser: a wrapper around the raw
path string (the parser performs no normalisation). -/
structure FilePath where
  path : PyStr
deriving DecidableEq

/-- The backing-file trimming steps of `_losetup_list_parse` (source
lines 542-560): trim everything up to and including the first left
bracket (Python `find` returning `-1` leaves the string whole), trim
from the rightmost right bracket (Python slicing `[:-1]` when `rfind`
returns `-1` drops the final character), strip a possible trailing
`(deleted)` marker, and strip trailing whitespace. -/
def _losetup_backing_file (backing_file : PyStr) : PyStr :=
  let b1 :=
    match pyFindSub backing_file ['('] with
    | none => backing_file
    | some i => backing_file.drop (i + 1)
  let b2 :=
    match pyRfindSub b1 [')'] with
    | none => b1.dropLast
    | some j => b1.take j
  let b3 :=
    match pyRfindSub b2 "(deleted)".toList with
    | none => b2
    | some off => b2.take off
  pyRstrip b3

/-- `_losetup_list_parse`: parse the output of `losetup --all`.  The
source's for-loop with `continue` for lines that do not split into three
colon-separated parts is a `filterMap` over the lines. -/
def _losetup_list_parse (output : PyStr) : List (FilePath × FilePath) :=
  (pySplitlines output).filterMap (fun line =>
    match pySplitMax ':' 2 line with
    | [device_file, _attributes, backing_file] =>
      some (FilePath.mk (pyStrip device_file),
            FilePath.mk (_losetup_backing_file backing_file))
    | _ => none)

theorem pySplitlinesAux_cons_other (c : Char) (rest acc : PyStr) (b : Bool)
    (h1 : c ≠ '\n') (h2 : c ≠ '\r') :
    pySplitlinesAux (c :: rest) acc b = pySplitlinesAux rest (c :: acc) false := by
  simp only [pySplitlinesAux]
  rw [if_neg h1, if_neg h2]

theorem pySplitlinesAux_no_newline (s : PyStr)
    (h : ∀ c ∈ s, c ≠ '\n' ∧ c ≠ '\r') :
    ∀ (acc : PyStr) (b : Bool), acc.reverse ++ s ≠ [] →
      pySplitlinesAux s acc b = [acc.reverse ++ s] := by
  induction s with
  | nil =>
    intro acc b hne
    simp only [List.append_nil] at hne ⊢
    unfold pySplitlinesAux
    rw [if_neg (fun he => hne (by rw [← List.reverse_reverse acc, he]; rfl))]
  | cons c rest ih =>
    intro acc b hne
    have hc := h c (List.mem_cons_self c rest)
    have hrest : ∀ c' ∈ rest, c' ≠ '\n' ∧ c' ≠ '\r' :=
      fun c' hc' => h c' (List.mem_cons_of_mem c hc')
    rw [pySplitlinesAux_cons_other c rest acc b hc.1 hc.2,
      ih hrest (c :: acc) false (by simp)]
    simp

theorem pySplitlines_single (s : PyStr) (h : ∀ c ∈ s, c ≠ '\n' ∧ c ≠ '\r')
    (hne : s ≠ []) : pySplitlines s = [s] := by
  have := pySplitlinesAux_no_newline s h [] false (by simpa using hne)
  simpa [pySplitlines] using this

theorem splitFirst_not_mem {sep : Char} {l : PyStr} (h : sep ∉ l) :
    splitFirst sep l = none := by
  induction l with
  | nil => rfl
  | cons c rest ih =>
    have hc : c ≠ sep := fun he => h (he ▸ List.mem_cons_self c rest)
    unfold splitFirst
    rw [if_neg hc, ih (fun hm => h (List.mem_cons_of_mem c hm))]
    rfl

theorem splitFirst_append {sep : Char} {l r : PyStr} (h : sep ∉ l) :
    splitFirst sep (l ++ sep :: r) = some (l, r) := by
  induction l with
  | nil => simp [splitFirst]
  | cons c rest ih =>
    have hc : c ≠ sep := fun he => h (he ▸ List.mem_cons_self c rest)
    have := ih (fun hm => h (List.mem_cons_of_mem c hm))
    simp only [List.cons_append]
    unfold splitFirst
    rw [if_neg hc, this]
    rfl

theorem pySplitMax_two (d a r : PyStr) (hd : ':' ∉ d) (ha : ':' ∉ a) :
    pySplitMax ':' 2 (d ++ ':' :: (a ++ ':' :: r)) = [d, a, r] := by
  have h1 : pySplitMax ':' 2 (d ++ ':' :: (a ++ ':' :: r)) =
      d :: pySplitMax ':' 1 (a ++ ':' :: r) := by
    unfold pySplitMax
    rw [splitFirst_append hd]
    rfl
  have h2 : pySplitMax ':' 1 (a ++ ':' :: r) = a :: pySplitMax ':' 0 r := by
    unfold pySplitMax
    rw [splitFirst_append ha]
    rfl
  rw [h1, h2]
  rfl

theorem isPrefixOf_single {c a : Char} {l : PyStr} :
    ([c].isPrefixOf (a :: l)) = (c == a) := by
  simp [List.isPrefixOf]

theorem pyFindSubFrom_single_append {c : Char} {l r : PyStr} (h : c ∉ l) :
    pyFindSubFrom [c] (l ++ c :: r) = some l.length := by
  induction l with
  | nil =>
    simp only [List.nil_append]
    unfold pyFindSubFrom
    rw [if_pos (by rw [isPrefixOf_single]; simp)]
    rfl
  | cons a rest ih =>
    have hc : a ≠ c := fun he => h (he ▸ List.mem_cons_self a rest)
    have hrec := ih (fun hm => h (List.mem_cons_of_mem a hm))
    simp only [List.cons_append]
    unfold pyFindSubFrom
    rw [if_neg (by rw [isPrefixOf_single]; simp [Ne.symm hc]), hrec]
    rfl

theorem pyFindSubFrom_single_not_mem {c : Char} {l : PyStr} (h : c ∉ l) :
    pyFindSubFrom [c] l = none := by
  induction l with
  | nil => rfl
  | cons a rest ih =>
    have hc : a ≠ c := fun he => h (he ▸ List.mem_cons_self a rest)
    unfold pyFindSubFrom
    rw [if_neg (by rw [isPrefixOf_single]; simp [Ne.symm hc]),
      ih (fun hm => h (List.mem_cons_of_mem a hm))]
    rfl

theorem pyFindSubFrom_within {sub l : PyStr} {i : Nat}
    (h : pyFindSubFrom sub l = some i) : sub <:+: l := by
  induction l generalizing i with
  | nil =>
    unfold pyFindSubFrom at h
    split at h
    · next hp =>
      rw [List.isPrefixOf_iff_prefix] at hp
      exact hp.isInfix
    · exact Option.noConfusion h
  | cons c rest ih =>
    unfold pyFindSubFrom at h
    split at h
    · next hp =>
      rw [List.isPrefixOf_iff_prefix] at hp
      exact hp.isInfix
    · next =>
      obtain ⟨j, hj, -⟩ := Option.map_eq_some'.mp h
      exact (ih hj).trans (List.infix_cons (List.infix_refl rest))

theorem pyFindSubFrom_eq_none {sub l : PyStr} {c : Char} (hc : c ∈ sub)
    (hl : c ∉ l) : pyFindSubFrom sub l = none := by
  cases hfind : pyFindSubFrom sub l with
  | none => rfl
  | some i => exact absurd ((pyFindSubFrom_within hfind).subset hc) hl

theorem pyFindSubFrom_front {sub : PyStr} {c : Char} {rest : PyStr}
    (h : sub.isPrefixOf (c :: rest)) : pyFindSubFrom sub (c :: rest) = some 0 := by
  unfold pyFindSubFrom
  rw [if_pos h]

theorem pyRfindSub_append_last (x : PyStr) (c : Char) :
    pyRfindSub (x ++ [c]) [c] = some x.length := by
  unfold pyRfindSub
  rw [List.reverse_append]
  simp only [List.reverse_cons, List.reverse_nil, List.nil_append, List.singleton_append]
  rw [pyFindSubFrom_front (by simp [List.isPrefixOf])]
  simp

theorem pyRfindSub_not_mem {sub l : PyStr} {c : Char} (hc : c ∈ sub)
    (hl : c ∉ l) : pyRfindSub l sub = none := by
  unfold pyRfindSub
  rw [pyFindSubFrom_eq_none (List.mem_reverse.mpr hc) (fun hm => hl (List.mem_reverse.mp hm))]
  rfl

theorem pyRstrip_append_space (x : PyStr) : pyRstrip (x ++ [' ']) = pyRstrip x := by
  unfold pyRstrip
  rw [List.reverse_append]
  rfl

theorem pyFindSubFrom_front_append (sub y : PyStr) (hne : sub ≠ []) :
    pyFindSubFrom sub (sub ++ y) = some 0 := by
  cases sub with
  | nil => exact absurd rfl hne
  | cons c cs =>
    rw [List.cons_append]
    exact pyFindSubFrom_front
      (List.isPrefixOf_iff_prefix.mpr (by rw [← List.cons_append]; exact List.prefix_append _ _))

/-- Computation of `_losetup_list_parse` on a single well-shaped line. -/
theorem losetup_parse_three (d a b : PyStr) (hd : ':' ∉ d) (ha : ':' ∉ a)
    (hnl : ∀ c ∈ d ++ ':' :: (a ++ ':' :: b), c ≠ '\n' ∧ c ≠ '\r') :
    _losetup_list_parse (d ++ ':' :: (a ++ ':' :: b)) =
      [(FilePath.mk (pyStrip d), FilePath.mk (_losetup_backing_file b))] := by
  unfold _losetup_list_parse
  rw [pySplitlines_single _ hnl (by simp), List.filterMap_cons]
  rw [pySplitMax_two d a b hd ha]
  rfl

/-- A line that does not split into exactly three colon-separated
segments contributes nothing. -/
theorem losetup_parse_skip (line : PyStr)
    (hnl : ∀ c ∈ line, c ≠ '\n' ∧ c ≠ '\r') (hne : line ≠ [])
    (hlen : (pySplitMax ':' 2 line).length ≠ 3) :
    _losetup_list_parse line = [] := by
  unfold _losetup_list_parse
  rw [pySplitlines_single _ hnl hne, List.filterMap_cons]
  rcases hp : pySplitMax ':' 2 line with _ | ⟨x, _ | ⟨y, _ | ⟨z, _ | ⟨w, t⟩⟩⟩⟩
  · rfl
  · rfl
  · rfl
  · exact absurd (by rw [hp]; rfl) hlen
  · rfl

theorem no_newline_append {l1 l2 : PyStr}
    (h1 : ∀ c ∈ l1, c ≠ '\n' ∧ c ≠ '\r') (h2 : ∀ c ∈ l2, c ≠ '\n' ∧ c ≠ '\r') :
    ∀ c ∈ l1 ++ l2, c ≠ '\n' ∧ c ≠ '\r' := by
  intro c hc
  rcases List.mem_append.mp hc with h | h
  · exact h1 c h
  · exact h2 c h

theorem no_newline_cons {a : Char} {l : PyStr}
    (ha : a ≠ '\n' ∧ a ≠ '\r') (h : ∀ c ∈ l, c ≠ '\n' ∧ c ≠ '\r') :
    ∀ c ∈ a :: l, c ≠ '\n' ∧ c ≠ '\r' := by
  intro c hc
  rcases List.mem_cons.mp hc with rfl | h'
  · exact ha
  · exact h c h'

theorem no_newline_nil : ∀ c ∈ ([] : PyStr), c ≠ '\n' ∧ c ≠ '\r' := by
  intro c hc
  exact absurd hc (List.not_mem_nil c)

/-- The backing-file trimming on a well-shaped third segment without a
deleted marker. -/
theorem losetup_backing_plain (a2 backing : PyStr)
    (ha2 : '(' ∉ a2) (hb : '(' ∉ backing) (hr : pyRstrip backing = backing) :
    _losetup_backing_file (a2 ++ '(' :: (backing ++ [')'])) = backing := by
  have hfind : pyFindSub (a2 ++ '(' :: (backing ++ [')'])) ['('] = some a2.length :=
    pyFindSubFrom_single_append ha2
  have hdrop : (a2 ++ '(' :: (backing ++ [')'])).drop (a2.length + 1) =
      backing ++ [')'] := by
    have h1 : a2 ++ '(' :: (backing ++ [')']) = (a2 ++ ['(']) ++ (backing ++ [')']) := by
      simp
    have hlen : (a2 ++ ['(']).length = a2.length + 1 := by simp
    rw [h1, ← hlen, List.drop_left]
  have hnone := pyRfindSub_not_mem (by decide : '(' ∈ "(deleted)".toList) hb
  unfold _losetup_backing_file
  simp only [hfind]
  simp only [hdrop]
  simp only [pyRfindSub_append_last backing ')']
  simp only [List.take_left]
  simp only [hnone]
  exact hr

/-- The backing-file trimming on a well-shaped third segment carrying a
trailing deleted marker: the marker and the separating space are
stripped. -/
theorem losetup_backing_deleted (a2 backing : PyStr)
    (ha2 : '(' ∉ a2) (hb : '(' ∉ backing) (hr : pyRstrip backing = backing) :
    _losetup_backing_file (a2 ++ '(' :: (backing ++ " (deleted)".toList ++ [')'])) =
      backing := by
  have hfind : pyFindSub (a2 ++ '(' ::
      (backing ++ " (deleted)".toList ++ [')'])) ['('] = some a2.length :=
    pyFindSubFrom_single_append ha2
  have hdrop : (a2 ++ '(' :: (backing ++ " (deleted)".toList ++ [')'])).drop
      (a2.length + 1) = backing ++ " (deleted)".toList ++ [')'] := by
    have h1 : a2 ++ '(' :: (backing ++ " (deleted)".toList ++ [')']) =
        (a2 ++ ['(']) ++ (backing ++ " (deleted)".toList ++ [')']) := by
      simp
    have hlen : (a2 ++ ['(']).length = a2.length + 1 := by simp
    rw [h1, ← hlen, List.drop_left]
  have hlast : pyRfindSub (backing ++ " (deleted)".toList ++ [')']) [')'] =
      some (backing ++ " (deleted)".toList).length :=
    pyRfindSub_append_last _ ')'
  have htake1 : (backing ++ " (deleted)".toList ++ [')']).take
      (backing ++ " (deleted)".toList).length = backing ++ " (deleted)".toList :=
    List.take_left _ _
  have hdel : pyRfindSub (backing ++ " (deleted)".toList) "(deleted)".toList =
      some (backing.length + 1) := by
    unfold pyRfindSub
    have hrev : (backing ++ " (deleted)".toList).reverse =
        "(deleted)".toList.reverse ++ (' ' :: backing.reverse) := by
      rw [List.reverse_append]
      have h2 : " (deleted)".toList.reverse = "(deleted)".toList.reverse ++ [' '] := by
        decide
      rw [h2, List.append_assoc, List.singleton_append]
    rw [hrev, pyFindSubFrom_front_append _ _ (by decide)]
    simp only [Option.map_some']
    congr 1
    simp only [List.length_append]
    have h9 : ("(deleted)".toList).length = 9 := by decide
    have h10 : (" (deleted)".toList).length = 10 := by decide
    rw [h9, h10]
    omega
  have htake2 : (backing ++ " (deleted)".toList).take (backing.length + 1) =
      backing ++ [' '] := by
    rw [List.take_append]
    congr 1
  unfold _losetup_backing_file
  simp only [hfind]
  simp only [hdrop]
  simp only [hlast]
  simp only [htake1]
  simp only [hdel]
  simp only [htake2]
  rw [pyRstrip_append_space, hr]

/-- A `losetup --all` line assembled from a device path, two attribute
segments (split by the second colon), and a backing path in brackets
with an optional trailing deleted marker. -/
def formatLosetupLine (device a1 a2 backing : PyStr) (deleted : Bool) : PyStr :=
  device ++ ':' :: (a1 ++ ':' :: (a2 ++ '(' ::
    ((backing ++ (if deleted then " (deleted)".toList else [])) ++ [')'])))

/-- Claim C5: for every device path and backing path containing no
parenthesis characters (and no newlines, the device colon-free and
strip-invariant, the backing free of trailing whitespace), parsing a
`losetup --all` line formed from them recovers exactly the pair
`(FilePath device, FilePath backing)`, the optional deleted marker being
stripped; and the concrete example line from the spec parses to exactly
the pair given there. -/
theorem losetup_parse_roundtrip :
    (∀ (device a1 a2 backing : PyStr) (deleted : Bool),
      ':' ∉ device → ':' ∉ a1 → '(' ∉ a2 → '(' ∉ backing → ')' ∉ backing →
      (∀ c ∈ device, c ≠ '\n' ∧ c ≠ '\r') → (∀ c ∈ a1, c ≠ '\n' ∧ c ≠ '\r') →
      (∀ c ∈ a2, c ≠ '\n' ∧ c ≠ '\r') → (∀ c ∈ backing, c ≠ '\n' ∧ c ≠ '\r') →
      pyStrip device = device → pyRstrip backing = backing →
      _losetup_list_parse (formatLosetupLine device a1 a2 backing deleted) =
        [(FilePath.mk device, FilePath.mk backing)]) ∧
    _losetup_list_parse
        "/dev/loop0: [fd00]:1234 (/tmp/lb/attached/h/block-... (deleted))".toList =
      [(FilePath.mk "/dev/loop0".toList,
        FilePath.mk "/tmp/lb/attached/h/block-...".toList)] := by
  constructor
  · intro device a1 a2 backing deleted hd ha1 ha2 hb hpb hnld hnla1 hnla2 hnlb hstrip hrstrip
    have hmark : ∀ c ∈ " (deleted)".toList, c ≠ '\n' ∧ c ≠ '\r' := by decide
    cases deleted with
    | false =>
      show _losetup_list_parse (device ++ ':' :: (a1 ++ ':' ::
        (a2 ++ '(' :: ((backing ++ []) ++ [')'])))) = _
      rw [List.append_nil]
      have hnl : ∀ c ∈ device ++ ':' :: (a1 ++ ':' ::
          (a2 ++ '(' :: (backing ++ [')']))), c ≠ '\n' ∧ c ≠ '\r' :=
        no_newline_append hnld (no_newline_cons (by decide)
          (no_newline_append hnla1 (no_newline_cons (by decide)
            (no_newline_append hnla2 (no_newline_cons (by decide)
              (no_newline_append hnlb (no_newline_cons (by decide) no_newline_nil)))))))
      rw [losetup_parse_three device a1 _ hd ha1 hnl, hstrip,
        losetup_backing_plain a2 backing ha2 hb hrstrip]
    | true =>
      show _losetup_list_parse (device ++ ':' :: (a1 ++ ':' ::
        (a2 ++ '(' :: ((backing ++ " (deleted)".toList) ++ [')'])))) = _
      have hnl : ∀ c ∈ device ++ ':' :: (a1 ++ ':' ::
          (a2 ++ '(' :: ((backing ++ " (deleted)".toList) ++ [')']))),
          c ≠ '\n' ∧ c ≠ '\r' :=
        no_newline_append hnld (no_newline_cons (by decide)
          (no_newline_append hnla1 (no_newline_cons (by decide)
            (no_newline_append hnla2 (no_newline_cons (by decide)
              (no_newline_append (no_newline_append hnlb hmark)
                (no_newline_cons (by decide) no_newline_nil)))))))
      rw [losetup_parse_three device a1 _ hd ha1 hnl, hstrip,
        losetup_backing_deleted a2 backing ha2 hb hrstrip]
  · decide

/-- Witness for claim C5, instantiating the round-trip at a concrete
line with a deleted marker. -/
theorem losetup_parse_roundtrip_witness :
    _losetup_list_parse (formatLosetupLine "/dev/loop9".toList " [fd00]".toList
        "1234 ".toList "/tmp/z".toList true) =
      [(FilePath.mk "/dev/loop9".toList, FilePath.mk "/tmp/z".toList)] :=
  losetup_parse_roundtrip.1 "/dev/loop9".toList " [fd00]".toList "1234 ".toList
    "/tmp/z".toList true (by decide) (by decide) (by decide) (by decide) (by decide)
    (by decide) (by decide) (by decide) (by decide) (by decide) (by decide)

/-- Claim C10 counterexample: on the line `a:b:x y` the code also strips
the trailing whitespace left after dropping the final character, so the
backing path is `x`, not the claimed `x ` (third segment minus its last
character). -/
theorem losetup_parse_rstrip_counterexample :
    _losetup_list_parse "a:b:x y".toList =
      [(FilePath.mk "a".toList, FilePath.mk "x".toList)] ∧
    _losetup_list_parse "a:b:x y".toList ≠
      [(FilePath.mk "a".toList, FilePath.mk "x ".toList)] := by
  constructor
  · decide
  · decide

/-- Claim C10 (amended): `_losetup_list_parse` is total by construction;
a line with fewer than three colon-separated segments is skipped, and a
line with three segments but no parentheses still yields an entry whose
backing path is the whole third segment with its final character dropped
and any trailing whitespace stripped. -/
theorem losetup_parse_total_amended :
    (∀ line : PyStr, (∀ c ∈ line, c ≠ '\n' ∧ c ≠ '\r') → line ≠ [] →
      (pySplitMax ':' 2 line).length ≠ 3 → _losetup_list_parse line = []) ∧
    (∀ line d a b : PyStr, (∀ c ∈ line, c ≠ '\n' ∧ c ≠ '\r') → line ≠ [] →
      pySplitMax ':' 2 line = [d, a, b] → '(' ∉ b → ')' ∉ b →
      _losetup_list_parse line =
        [(FilePath.mk (pyStrip d), FilePath.mk (pyRstrip b.dropLast))]) := by
  constructor
  · exact losetup_parse_skip
  · intro line d a b hnl hne hsplit hb1 hb2
    have hback : _losetup_backing_file b = pyRstrip b.dropLast := by
      have h1 : pyFindSub b ['('] = none := pyFindSubFrom_single_not_mem hb1
      have h2 : pyRfindSub b [')'] = none :=
        pyRfindSub_not_mem (by decide : ')' ∈ [')']) hb2
      have h3 : pyRfindSub b.dropLast "(deleted)".toList = none :=
        pyRfindSub_not_mem (by decide : '(' ∈ "(deleted)".toList)
          (fun hm => hb1 ((List.dropLast_sublist b).subset hm))
      unfold _losetup_backing_file
      simp only [h1]
      simp only [h2]
      simp only [h3]
    unfold _losetup_list_parse
    rw [pySplitlines_single _ hnl hne, List.filterMap_cons, hsplit]
    simp only [hback]
    rfl

/-- Witness for the amended claim C10, instantiating it at the line
`a:b:xy`. -/
theorem losetup_parse_total_amended_witness :
    _losetup_list_parse "a:b:xy".toList =
      [(FilePath.mk (pyStrip "a".toList),
        FilePath.mk (pyRstrip ("xy".toList.dropLast)))] :=
  losetup_parse_total_amended.2 "a:b:xy".toList "a".toList "b".toList "xy".toList
    (by decide) (by decide) (by decide) (by decide) (by decide)

/-! ## Host utilities and state-change operations -/

/-- The host `umount` utility applied to a device: remove its mount
table entries; exits non-zero when the device is not mounted. -/
def umountDevice (device : FPath) (w : LoopWorld) : Except Err LoopWorld :=
  if w.mounts.any (fun p => p.1 = device) then
    .ok { w with mounts := w.mounts.filter (fun p => p.1 ≠ device) }
  else .error .processError

/-- The host `mkfs -t ext4` utility applied to a device (filesystem
contents are not modelled; the invocation is recorded in the trace). -/
def mkfsExt4 (device : FPath) (w : LoopWorld) : LoopWorld :=
  { w with events := w.events ++ [.mkfs "ext4".toList device] }

/-- Twisted `FilePath.makedirs()`: create the directory and its parents,
raising `OSError` when the directory already exists. -/
def makedirs (p : FPath) (w : LoopWorld) : Except Err LoopWorld :=
  if p ∈ w.dirs then .error .osError
  else .ok { w with dirs := w.dirs ++ [p],
                    events := w.events ++ [.makedirs p] }

/-- The host `mount` utility: add an entry to the mount table. -/
def mountDevice (device mountpoint : FPath) (w : LoopWorld) : LoopWorld :=
  { w with mounts := w.mounts ++ [(device, mountpoint)],
           events := w.events ++ [.mount device mountpoint] }

/-- `UnmountBlockDevice.run`: resolve the volume's device path and run
`umount` on it. -/
def UnmountBlockDevice.run (deployer : BlockDeviceDeployer)
    (volume : BlockDeviceVolume) (w : LoopWorld) : Except Err LoopWorld := do
  let r ← deployer.block_device_api.get_device_path volume.blockdevice_id w
  match r.1 with
  | none => .error .attributeError
  | some device => umountDevice device r.2

/-- `DetachVolume.run`: delegate to the API. -/
def DetachVolume.run (deployer : BlockDeviceDeployer)
    (volume : BlockDeviceVolume) (w : LoopWorld) : Except Err LoopWorld :=
  deployer.block_device_api.detach_volume volume.blockdevice_id w

/-- `DestroyVolume.run`: delegate to the API. -/
def DestroyVolume.run (deployer : BlockDeviceDeployer)
    (volume : BlockDeviceVolume) (w : LoopWorld) : Except Err LoopWorld :=
  deployer.block_device_api.destroy_volume volume.blockdevice_id w

/-- Modelled from the spec: `Sequentially` is imported from
`flocker.node` (not under src/); spec section 4.3: run the children in
order, stopping and propagating on the first failure. -/
def Sequentially.run (changes : List (LoopWorld → Except Err LoopWorld))
    (w : LoopWorld) : Except Err LoopWorld :=
  changes.foldlM (fun s f => f s) w

/-- `DestroyBlockDeviceDataset.run`: scan `list_volumes` for the first
volume of the dataset; when found, run
`Sequentially [UnmountBlockDevice, DetachVolume, DestroyVolume]` on it,
and succeed with no effect otherwise. -/
def DestroyBlockDeviceDataset.run (deployer : BlockDeviceDeployer)
    (dataset_id : PyStr) (w : LoopWorld) : Except Err LoopWorld :=
  match (deployer.block_device_api.list_volumes w).find?
      (fun v => v.dataset_id = dataset_id) with
  | some volume =>
    Sequentially.run
      [UnmountBlockDevice.run deployer volume,
       DetachVolume.run deployer volume,
       DestroyVolume.run deployer volume] w
  | none => .ok w

/-- `CreateBlockDeviceDataset.run`: create the volume (passing
`dataset.maximum_size` to `create_volume`; a missing size is a
`TypeError` from `truncate(None)`), attach it to this node, resolve its
device path (`.path` on `None` raises `AttributeError`), make an ext4
filesystem, create the mountpoint directory, and mount the device. -/
def CreateBlockDeviceDataset.run (deployer : BlockDeviceDeployer)
    (dataset : Dataset) (mountpoint : FPath) (w : LoopWorld) :
    Except Err LoopWorld := do
  let api := deployer.block_device_api
  match dataset.maximum_size with
  | none => .error .typeError
  | some size => do
    let (volume0, w1) := api.create_volume dataset.dataset_id size w
    let r1 ← api.attach_volume volume0.blockdevice_id deployer.hostname w1
    let volume := r1.1
    let r2 ← api.get_device_path volume.blockdevice_id r1.2
    match r2.1 with
    | none => .error .attributeError
    | some device => do
      let w4 := mkfsExt4 device r2.2
      let w5 ← makedirs mountpoint w4
      .ok (mountDevice device mountpoint w5)

/-! ## Support lemmas for the loopback provider -/

theorem find?_append_some {α : Type} {l1 l2 : List α} {p : α → Bool} {x : α}
    (h : l1.find? p = some x) : (l1 ++ l2).find? p = some x := by
  induction l1 with
  | nil => simp [List.find?] at h
  | cons a rest ih =>
    rw [List.cons_append]
    cases hp : p a with
    | true =>
      rw [List.find?_cons_of_pos _ hp] at h ⊢
      exact h
    | false =>
      rw [List.find?_cons_of_neg _ (by simp [hp])] at h ⊢
      exact ih h

theorem find?_append_none {α : Type} {l1 : List α} (l2 : List α) {p : α → Bool}
    (h : l1.find? p = none) : (l1 ++ l2).find? p = l2.find? p := by
  induction l1 with
  | nil => simp
  | cons a rest ih =>
    rw [List.cons_append]
    cases hp : p a with
    | true => rw [List.find?_cons_of_pos _ hp] at h; exact Option.noConfusion h
    | false =>
      rw [List.find?_cons_of_neg _ (by simp [hp])] at h ⊢
      exact ih h

theorem dictGet_dictInsert_self {α β : Type} [DecidableEq α] (k : α) (v : β)
    (l : List (α × β)) : dictGet k (dictInsert k v l) = some v := by
  induction l with
  | nil => simp [dictInsert, dictGet, List.find?]
  | cons p rest ih =>
    obtain ⟨k', v'⟩ := p
    by_cases hk : k' = k
    · subst hk
      simp [dictInsert, dictGet_cons]
    · simp only [dictInsert, if_neg hk]
      rw [dictGet_cons, if_neg hk]
      exact ih

theorem dictGet_dictRemove_self {α β : Type} [DecidableEq α] (k : α)
    (l : List (α × β)) : dictGet k (dictRemove k l) = none := by
  have hfind : (dictRemove k l).find? (fun p => p.1 = k) = none := by
    rw [List.find?_eq_none]
    intro p hp
    rcases List.mem_filter.mp hp with ⟨-, hne⟩
    simpa using hne
  unfold dictGet
  rw [hfind]
  rfl

theorem mem_dictInsert_self {α β : Type} [DecidableEq α] (k : α) (v : β)
    (l : List (α × β)) : (k, v) ∈ dictInsert k v l := by
  induction l with
  | nil => simp [dictInsert]
  | cons p rest ih =>
    obtain ⟨k', v'⟩ := p
    by_cases hk : k' = k
    · simp [dictInsert, hk]
    · simp only [dictInsert, if_neg hk]
      exact List.mem_cons_of_mem _ ih

theorem dictInsert_of_not_mem {α β : Type} [DecidableEq α] {k : α} (v : β)
    {l : List (α × β)} (h : ∀ p ∈ l, p.1 ≠ k) :
    dictInsert k v l = l ++ [(k, v)] := by
  induction l with
  | nil => rfl
  | cons p rest ih =>
    obtain ⟨k', v'⟩ := p
    have hk : k' ≠ k := h (k', v') (List.mem_cons_self _ _)
    simp only [dictInsert, if_neg hk, List.cons_append, List.cons.injEq, true_and]
    exact ih (fun q hq => h q (List.mem_cons_of_mem _ hq))

theorem dictGet_eq_some_entry {α β : Type} [DecidableEq α] {k : α} {v : β}
    {l : List (α × β)} (h : dictGet k l = some v) :
    l.find? (fun p => p.1 = k) = some (k, v) := by
  unfold dictGet at h
  obtain ⟨q, hq, hq2⟩ := Option.map_eq_some'.mp h
  have hk : q.1 = k := by simpa using List.find?_some hq
  have : q = (k, v) := by
    obtain ⟨a, b⟩ := q
    simp only at hk hq2
    rw [Prod.mk.injEq]
    exact ⟨hk, hq2⟩
  rw [← this]
  exact hq

/-- The `find?` used by `_get` over the unattached block of
`list_volumes`, in terms of the backing dictionary. -/
theorem find?_volumes_map (l : List (PyStr × Nat)) (host : Option PyStr) (id : PyStr) :
    ((l.map (fun p => _blockdevicevolume_from_blockdevice_id p.1 p.2 host)).find?
      (fun v => v.blockdevice_id = id)) =
    ((l.find? (fun p => p.1 = id)).map
      (fun p => _blockdevicevolume_from_blockdevice_id p.1 p.2 host)) := by
  induction l with
  | nil => rfl
  | cons p rest ih =>
    obtain ⟨k, s⟩ := p
    by_cases hk : k = id
    · subst hk
      rw [List.map_cons, List.find?_cons_of_pos _ (by simp [_blockdevicevolume_from_blockdevice_id]),
        List.find?_cons_of_pos _ (by simp)]
      rfl
    · rw [List.map_cons, List.find?_cons_of_neg _ (by simp [_blockdevicevolume_from_blockdevice_id, hk]),
        List.find?_cons_of_neg _ (by simp [hk])]
      exact ih

theorem list_volumes_find_unattached (api : LoopbackBlockDeviceAPI)
    (w : LoopWorld) {id : PyStr} {s : Nat}
    (h : dictGet id w.unattached = some s) :
    (api.list_volumes w).find? (fun v => v.blockdevice_id = id) =
      some (_blockdevicevolume_from_blockdevice_id id s none) := by
  unfold LoopbackBlockDeviceAPI.list_volumes
  refine find?_append_some ?_
  rw [find?_volumes_map, dictGet_eq_some_entry h]
  rfl

theorem list_volumes_find_none (api : LoopbackBlockDeviceAPI) (w : LoopWorld)
    {id : PyStr} (h : ∀ v ∈ api.list_volumes w, v.blockdevice_id ≠ id) :
    (api.list_volumes w).find? (fun v => v.blockdevice_id = id) = none := by
  rw [List.find?_eq_none]
  intro v hv
  simpa using h v hv

/-- Claim C6: for every dataset id `d` and size `s`, `create_volume d s`
followed by `list_volumes` yields a volume with `dataset_id = d`,
`size = s`, `host` unattached, and `blockdevice_id` equal to the literal
string `block-` followed by `d` (and `list_volumes` recovers the dataset
id by stripping the prefix). -/
theorem create_volume_then_list (api : LoopbackBlockDeviceAPI) (w : LoopWorld)
    (d : PyStr) (s : Nat) :
    (api.create_volume d s w).1.blockdevice_id = "block-".toList ++ d ∧
    ∃ v ∈ api.list_volumes (api.create_volume d s w).2,
      v.dataset_id = d ∧ v.size = s ∧ v.host = none ∧
      v.blockdevice_id = "block-".toList ++ d := by
  constructor
  · rfl
  · refine ⟨_blockdevicevolume_from_blockdevice_id ("block-".toList ++ d) s none,
      ?_, ?_, rfl, rfl, rfl⟩
    · unfold LoopbackBlockDeviceAPI.list_volumes
      refine List.mem_append_left _ (List.mem_map.mpr
        ⟨("block-".toList ++ d, s), ?_, rfl⟩)
      exact mem_dictInsert_self _ _ _
    · show ("block-".toList ++ d).drop 6 = d
      have h6 : ("block-".toList).length = 6 := by decide
      rw [← h6, List.drop_left]

/-- Claim C8: `get_device_path` raises `UnknownVolume` when no volume
has the identifier, `UnattachedVolume` when the (first matching) volume
is unattached, and otherwise returns the device of the loop-table entry
whose backing file is `attached/<host>/<id>`. -/
theorem get_device_path_spec (api : LoopbackBlockDeviceAPI) (w : LoopWorld)
    (id : PyStr) :
    ((∀ v ∈ api.list_volumes w, v.blockdevice_id ≠ id) →
      api.get_device_path id w = .error (.unknownVolume id)) ∧
    (∀ v, (api.list_volumes w).find? (fun u => u.blockdevice_id = id) = some v →
      v.host = none →
      api.get_device_path id w = .error (.unattachedVolume id)) ∧
    (∀ v host e,
      (api.list_volumes w).find? (fun u => u.blockdevice_id = id) = some v →
      v.host = some host →
      w.loop_table.find? (fun p => p.2 = api.attachedPath host id) = some e →
      api.get_device_path id w =
        .ok (some e.1, { w with events := w.events ++ [.getDevicePath id] })) := by
  refine ⟨?_, ?_, ?_⟩
  · intro h
    unfold LoopbackBlockDeviceAPI.get_device_path LoopbackBlockDeviceAPI._get
    rw [list_volumes_find_none api w h]
    rfl
  · intro v hfind hhost
    unfold LoopbackBlockDeviceAPI.get_device_path LoopbackBlockDeviceAPI._get
    rw [hfind]
    show (match v.host with
      | none => Except.error (Err.unattachedVolume id)
      | some host =>
        Except.ok (_device_for_path w (api.attachedPath host v.blockdevice_id),
          { w with events := w.events ++ [Event.getDevicePath id] })) = _
    rw [hhost]
  · intro v host e hfind hhost he
    have hbid : v.blockdevice_id = id := by
      simpa using List.find?_some hfind
    unfold LoopbackBlockDeviceAPI.get_device_path LoopbackBlockDeviceAPI._get
    rw [hfind]
    show (match v.host with
      | none => Except.error (Err.unattachedVolume id)
      | some host =>
        Except.ok (_device_for_path w (api.attachedPath host v.blockdevice_id),
          { w with events := w.events ++ [Event.getDevicePath id] })) = _
    rw [hhost, hbid]
    unfold _device_for_path
    simp only [he]
    rfl

/-- A provider instance and a world with one unattached volume
(`block-u`, 3 bytes) and one volume attached to host `h` (`block-a`,
5 bytes) whose backing file is bound to loop device 0; used as concrete
input for several witnesses. -/
def apiW : LoopbackBlockDeviceAPI := { root_path := ["r".toList] }

def wC8 : LoopWorld :=
  { unattached := [("block-u".toList, 3)],
    attached := [("h".toList, [("block-a".toList, 5)])],
    loop_table := [(loopDevice 0, apiW.attachedPath "h".toList "block-a".toList)],
    next_loop := 1, mounts := [], dirs := [], events := [] }

/-- Witness for claim C8 at the concrete world: an attached volume with
a loop device resolves to that device, the unattached volume raises
`UnattachedVolume`, an unknown identifier raises `UnknownVolume`. -/
theorem get_device_path_spec_witness :
    apiW.get_device_path "block-a".toList wC8 =
      .ok (some (loopDevice 0),
        { wC8 with events := wC8.events ++ [.getDevicePath "block-a".toList] }) ∧
    apiW.get_device_path "block-u".toList wC8 =
      .error (.unattachedVolume "block-u".toList) ∧
    apiW.get_device_path "block-z".toList wC8 =
      .error (.unknownVolume "block-z".toList) := by
  refine ⟨?_, ?_, ?_⟩
  · exact (get_device_path_spec apiW wC8 "block-a".toList).2.2
      (_blockdevicevolume_from_blockdevice_id "block-a".toList 5 (some "h".toList))
      "h".toList (loopDevice 0, apiW.attachedPath "h".toList "block-a".toList)
      (by decide) (by decide) (by decide)
  · exact (get_device_path_spec apiW wC8 "block-u".toList).2.1
      (_blockdevicevolume_from_blockdevice_id "block-u".toList 3 none)
      (by decide) (by decide)
  · exact (get_device_path_spec apiW wC8 "block-z".toList).1 (by decide)

/-- Claim C9 counterexample: in `wC8` the volume `block-a` exists (it is
attached to host `h`), yet `destroy_volume` fails with `OSError` instead
of removing the backing file: it only ever removes from `unattached/`
and does not touch the loop association. -/
theorem destroy_volume_attached_counterexample :
    (∃ v ∈ apiW.list_volumes wC8, v.blockdevice_id = "block-a".toList ∧
      v.host = some "h".toList) ∧
    apiW.destroy_volume "block-a".toList wC8 = .error .osError := by
  constructor
  · decide
  · decide

/-- Claim C9 (amended): `destroy_volume` raises `UnknownVolume` when no
volume has the identifier; for an unattached volume it removes the
backing file from `unattached/` so the volume no longer appears in
`list_volumes`; for an attached volume (no `unattached/` entry) it fails
with `OSError`. -/
theorem destroy_volume_spec (api : LoopbackBlockDeviceAPI) (w : LoopWorld)
    (id : PyStr) :
    ((∀ v ∈ api.list_volumes w, v.blockdevice_id ≠ id) →
      api.destroy_volume id w = .error (.unknownVolume id)) ∧
    (∀ s : Nat, dictGet id w.unattached = some s →
      api.destroy_volume id w =
        .ok { w with unattached := dictRemove id w.unattached } ∧
      ((∀ hd ∈ w.attached, ∀ p ∈ hd.2, p.1 ≠ id) →
        ∀ v ∈ api.list_volumes
          { w with unattached := dictRemove id w.unattached },
          v.blockdevice_id ≠ id)) ∧
    (dictGet id w.unattached = none →
      (∃ v ∈ api.list_volumes w, v.blockdevice_id = id) →
      api.destroy_volume id w = .error .osError) := by
  refine ⟨?_, ?_, ?_⟩
  · intro h
    unfold LoopbackBlockDeviceAPI.destroy_volume LoopbackBlockDeviceAPI._get
    rw [list_volumes_find_none api w h]
    rfl
  · intro s hget
    constructor
    · unfold LoopbackBlockDeviceAPI.destroy_volume LoopbackBlockDeviceAPI._get
      rw [list_volumes_find_unattached api w hget]
      show (match dictGet id w.unattached with
        | some _ => Except.ok { w with unattached := dictRemove id w.unattached }
        | none => Except.error Err.osError) = _
      rw [hget]
    · intro hno v hv
      unfold LoopbackBlockDeviceAPI.list_volumes at hv
      rcases List.mem_append.mp hv with h | h
      · obtain ⟨p, hp, hpv⟩ := List.mem_map.mp h
        rcases List.mem_filter.mp hp with ⟨-, hne⟩
        rw [← hpv]
        simpa using hne
      · obtain ⟨hd, hhd, hv2⟩ := List.mem_flatMap.mp h
        obtain ⟨p, hp, hpv⟩ := List.mem_map.mp hv2
        rw [← hpv]
        exact hno hd hhd p hp
  · intro hget ⟨v, hv, hbid⟩
    have hfind : ∃ u, (api.list_volumes w).find?
        (fun u => u.blockdevice_id = id) = some u := by
      cases hf : (api.list_volumes w).find? (fun u => u.blockdevice_id = id) with
      | some u => exact ⟨u, rfl⟩
      | none =>
        have := List.find?_eq_none.mp hf v hv
        simp [hbid] at this
    obtain ⟨u, hu⟩ := hfind
    have hubid : u.blockdevice_id = id := by simpa using List.find?_some hu
    unfold LoopbackBlockDeviceAPI.destroy_volume LoopbackBlockDeviceAPI._get
    rw [hu]
    show (match dictGet u.blockdevice_id w.unattached with
      | some _ => Except.ok { w with unattached := dictRemove u.blockdevice_id w.unattached }
      | none => Except.error Err.osError) = _
    rw [hubid, hget]

/-- Witness for the amended claim C9: destroying the unattached volume
`block-u` in the concrete world removes its `unattached/` entry. -/
theorem destroy_volume_spec_witness :
    apiW.destroy_volume "block-u".toList wC8 =
      .ok { wC8 with unattached := dictRemove "block-u".toList wC8.unattached } :=
  ((destroy_volume_spec apiW wC8 "block-u".toList).2.1 3 (by decide)).1

theorem except_bind_pure {ε α : Type} (x : Except ε α) :
    (x >>= fun a => pure a) = x := by
  cases x <;> rfl

/-- Claim C3: `DestroyBlockDeviceDataset.run` succeeds with the state
unchanged when no listed volume carries the dataset id, and otherwise
runs `Sequentially [UnmountBlockDevice, DetachVolume, DestroyVolume]` on
the first such volume, which unfolds to running unmount, then detach,
then destroy, in that order, stopping at the first failure. -/
theorem destroy_dataset_run_spec (deployer : BlockDeviceDeployer) (w : LoopWorld)
    (dataset_id : PyStr) :
    ((∀ v ∈ deployer.block_device_api.list_volumes w, v.dataset_id ≠ dataset_id) →
      DestroyBlockDeviceDataset.run deployer dataset_id w = .ok w) ∧
    (∀ v, (deployer.block_device_api.list_volumes w).find?
        (fun u => u.dataset_id = dataset_id) = some v →
      DestroyBlockDeviceDataset.run deployer dataset_id w =
        Sequentially.run [UnmountBlockDevice.run deployer v,
          DetachVolume.run deployer v, DestroyVolume.run deployer v] w ∧
      Sequentially.run [UnmountBlockDevice.run deployer v,
          DetachVolume.run deployer v, DestroyVolume.run deployer v] w =
        (UnmountBlockDevice.run deployer v w).bind (fun w1 =>
          (DetachVolume.run deployer v w1).bind (fun w2 =>
            DestroyVolume.run deployer v w2))) := by
  constructor
  · intro h
    have hfind : (deployer.block_device_api.list_volumes w).find?
        (fun u => u.dataset_id = dataset_id) = none := by
      rw [List.find?_eq_none]
      intro v hv
      simpa using h v hv
    unfold DestroyBlockDeviceDataset.run
    rw [hfind]
  · intro v hfind
    constructor
    · unfold DestroyBlockDeviceDataset.run
      rw [hfind]
    · unfold Sequentially.run
      simp only [List.foldlM]
      simp only [except_bind_pure]
      rfl

def emptyWorld : LoopWorld :=
  { unattached := [], attached := [], loop_table := [], next_loop := 0,
    mounts := [], dirs := [], events := [] }

/-- Witness for claim C3: on an empty provider state, destroying a
dataset that has no volume succeeds and leaves the world unchanged. -/
theorem destroy_dataset_run_spec_witness :
    DestroyBlockDeviceDataset.run exampleDeployer "nope".toList emptyWorld =
      .ok emptyWorld :=
  (destroy_dataset_run_spec exampleDeployer emptyWorld "nope".toList).1 (by decide)

theorem except_error_bind {ε α β : Type} (e : ε) (f : α → Except ε β) :
    (Except.error e >>= f) = Except.error e := rfl

theorem except_ok_bind {ε α β : Type} (a : α) (f : α → Except ε β) :
    (Except.ok a >>= f) = f a := rfl

/-- Inversion of a successful `attach_volume`: the returned volume is the
found one with `host` set, the trace gains the attach event, and mount
table and directories are untouched. -/
theorem attach_volume_ok {api : LoopbackBlockDeviceAPI} {id host : PyStr}
    {w : LoopWorld} {v : BlockDeviceVolume} {w' : LoopWorld}
    (h : api.attach_volume id host w = .ok (v, w')) :
    v.blockdevice_id = id ∧ v.host = some host ∧
    w'.events = w.events ++ [.attachVolume id host] ∧
    w'.mounts = w.mounts ∧ w'.dirs = w.dirs := by
  unfold LoopbackBlockDeviceAPI.attach_volume LoopbackBlockDeviceAPI._get at h
  rcases hf : (api.list_volumes w).find? (fun u => u.blockdevice_id = id) with _ | u
  · rw [hf] at h
    exact Except.noConfusion h
  · rw [hf] at h
    simp only [except_ok_bind] at h
    have hubid : u.blockdevice_id = id := by simpa using List.find?_some hf
    rcases hh : u.host with _ | hst
    · rw [hh] at h
      rcases hg : dictGet id w.unattached with _ | sz
      · rw [hg] at h
        exact Except.noConfusion h
      · rw [hg] at h
        simp only [Except.ok.injEq, Prod.mk.injEq] at h
        obtain ⟨hv, hw⟩ := h
        refine ⟨?_, ?_, ?_, ?_, ?_⟩
        · rw [← hv]; exact hubid
        · rw [← hv]
        · rw [← hw]
        · rw [← hw]
        · rw [← hw]
    · rw [hh] at h
      exact Except.noConfusion h

/-- Inversion of a successful `get_device_path`: the world only gains
the trace event. -/
theorem get_device_path_ok {api : LoopbackBlockDeviceAPI} {id : PyStr}
    {w : LoopWorld} {d : Option FPath} {w' : LoopWorld}
    (h : api.get_device_path id w = .ok (d, w')) :
    w' = { w with events := w.events ++ [.getDevicePath id] } := by
  unfold LoopbackBlockDeviceAPI.get_device_path LoopbackBlockDeviceAPI._get at h
  rcases hf : (api.list_volumes w).find? (fun u => u.blockdevice_id = id) with _ | u
  · rw [hf] at h
    exact Except.noConfusion h
  · rw [hf] at h
    simp only [except_ok_bind] at h
    rcases hh : u.host with _ | hst
    · rw [hh] at h
      exact Except.noConfusion h
    · rw [hh] at h
      simp only [Except.ok.injEq, Prod.mk.injEq] at h
      exact h.2.symm

/-- Inversion of a successful `makedirs`: the directory did not already
exist, and the world gains the directory and the trace event. -/
theorem makedirs_ok {p : FPath} {w w' : LoopWorld}
    (h : makedirs p w = .ok w') :
    p ∉ w.dirs ∧
    w' = { w with dirs := w.dirs ++ [p],
                  events := w.events ++ [.makedirs p] } := by
  unfold makedirs at h
  by_cases hmem : p ∈ w.dirs
  · rw [if_pos hmem] at h
    exact Except.noConfusion h
  · rw [if_neg hmem] at h
    simp only [Except.ok.injEq] at h
    exact ⟨hmem, h.symm⟩

theorem except_bind_ok {ε α β : Type} {x : Except ε α} {f : α → Except ε β}
    {b : β} (h : (x >>= f) = .ok b) : ∃ a, x = .ok a ∧ f a = .ok b := by
  cases x with
  | error e => exact Except.noConfusion h
  | ok a => exact ⟨a, rfl, h⟩

/-- Claim C4 (amended): a successful `CreateBlockDeviceDataset.run`
performs, in this order: `create_volume(dataset_id, maximum_size)`,
`attach_volume` of the new volume to the deployer's hostname,
`get_device_path`, `mkfs -t ext4` on that device, `makedirs` of the
mountpoint, and `mount` of the device at the mountpoint; moreover a
successful run implies the mountpoint directory did not already exist
(the unwrapped `makedirs` raises `OSError` for a pre-existing
mountpoint; graceful handling is left to FLOC-1498). -/
theorem create_dataset_run_spec (deployer : BlockDeviceDeployer)
    (dataset : Dataset) (mountpoint : FPath) (w : LoopWorld) (s : Nat)
    (hsize : dataset.maximum_size = some s) :
    ∀ w', CreateBlockDeviceDataset.run deployer dataset mountpoint w = .ok w' →
      (∃ device,
        w'.events = w.events ++
          [.createVolume dataset.dataset_id s,
           .attachVolume ("block-".toList ++ dataset.dataset_id) deployer.hostname,
           .getDevicePath ("block-".toList ++ dataset.dataset_id),
           .mkfs "ext4".toList device,
           .makedirs mountpoint,
           .mount device mountpoint] ∧
        (device, mountpoint) ∈ w'.mounts) ∧
      mountpoint ∉ w.dirs := by
  intro w' hrun
  unfold CreateBlockDeviceDataset.run at hrun
  rw [hsize] at hrun
  simp only [LoopbackBlockDeviceAPI.create_volume,
    _blockdevicevolume_from_dataset_id] at hrun
  obtain ⟨⟨v, w2⟩, hatt, hrun2⟩ := except_bind_ok hrun
  obtain ⟨hvbid, -, hev2, hmt2, hdir2⟩ := attach_volume_ok hatt
  obtain ⟨⟨dOpt, w3⟩, hgdp, hrun3⟩ := except_bind_ok hrun2
  have hw3 := get_device_path_ok hgdp
  rcases dOpt with _ | device
  · exact Except.noConfusion hrun3
  · obtain ⟨w5, hmk, hfin⟩ := except_bind_ok hrun3
    obtain ⟨hnotmem, hw5⟩ := makedirs_ok hmk
    have hw' : w' = mountDevice device mountpoint w5 :=
      (Except.ok.inj hfin).symm
    have hev2' : w2.events = (w.events ++
        [Event.createVolume dataset.dataset_id s]) ++
        [Event.attachVolume ("block-".toList ++ dataset.dataset_id)
          deployer.hostname] := hev2
    have hdir2' : w2.dirs = w.dirs := hdir2
    have hmt2' : w2.mounts = w.mounts := hmt2
    constructor
    · refine ⟨device, ?_, ?_⟩
      · rw [hw']
        show w5.events ++ [Event.mount device mountpoint] = _
        rw [hw5]
        show ((mkfsExt4 device w3).events ++ [Event.makedirs mountpoint]) ++
          [Event.mount device mountpoint] = _
        show (((w3.events ++ [Event.mkfs "ext4".toList device]) ++
          [Event.makedirs mountpoint]) ++ [Event.mount device mountpoint]) = _
        rw [hw3]
        show (((w2.events ++ [Event.getDevicePath v.blockdevice_id]) ++
          [Event.mkfs "ext4".toList device]) ++
          [Event.makedirs mountpoint]) ++ [Event.mount device mountpoint] = _
        rw [hvbid, hev2']
        simp [List.append_assoc]
      · rw [hw']
        show (device, mountpoint) ∈ w5.mounts ++ [(device, mountpoint)]
        exact List.mem_append_right _ (List.mem_singleton.mpr rfl)
    · have hd3 : w3.dirs = w.dirs := by
        rw [hw3]
        show w2.dirs = w.dirs
        exact hdir2'
      have : mountpoint ∉ w3.dirs := hnotmem
      rw [hd3] at this
      exact this

def dsC4 : Dataset :=
  { dataset_id := "dd".toList, maximum_size := some 9, deleted := false }

def mpC4 : FPath := ["flocker".toList, "dd".toList]

/-- Claim C4 counterexample: with the mountpoint directory already in
existence, `CreateBlockDeviceDataset.run` fails with `OSError` from the
unwrapped `makedirs` instead of tolerating the directory. -/
theorem create_dataset_existing_mountpoint_counterexample :
    CreateBlockDeviceDataset.run exampleDeployer dsC4 mpC4
      { emptyWorld with dirs := [mpC4] } = .error .osError := by
  decide

/-- The world produced by a successful create run on the empty world. -/
def wC4done : LoopWorld :=
  { unattached := [],
    attached := [("node1".toList, [("block-dd".toList, 9)])],
    loop_table := [(loopDevice 0,
      exampleDeployer.block_device_api.attachedPath "node1".toList "block-dd".toList)],
    next_loop := 1,
    mounts := [(loopDevice 0, mpC4)],
    dirs := [mpC4],
    events := [.createVolume "dd".toList 9,
               .attachVolume "block-dd".toList "node1".toList,
               .getDevicePath "block-dd".toList,
               .mkfs "ext4".toList (loopDevice 0),
               .makedirs mpC4,
               .mount (loopDevice 0) mpC4] }

/-- Witness for the amended claim C4 at a concrete successful run. -/
theorem create_dataset_run_spec_witness :
    mpC4 ∉ emptyWorld.dirs ∧ (loopDevice 0, mpC4) ∈ wC4done.mounts := by
  have h := create_dataset_run_spec exampleDeployer dsC4 mpC4 emptyWorld 9 rfl
    wC4done (by decide)
  exact ⟨h.2, by decide⟩

theorem dictGet_dictModify_self {α β : Type} [DecidableEq α] (k : α) (f : β → β)
    (l : List (α × β)) : dictGet k (dictModify k f l) = (dictGet k l).map f := by
  induction l with
  | nil => rfl
  | cons p rest ih =>
    obtain ⟨k', v⟩ := p
    by_cases hk : k' = k
    · subst hk
      simp [dictModify, dictGet_cons]
    · simp only [dictModify, if_neg hk, dictGet_cons, if_neg hk]
      exact ih

theorem dictRemove_dictInsert {α β : Type} [DecidableEq α] (k : α) (v : β)
    (l : List (α × β)) : dictRemove k (dictInsert k v l) = dictRemove k l := by
  induction l with
  | nil => simp [dictInsert, dictRemove, List.filter]
  | cons p rest ih =>
    obtain ⟨k', v'⟩ := p
    by_cases hk : k' = k
    · subst hk
      simp only [dictInsert, if_pos]
      unfold dictRemove
      rw [List.filter_cons_of_neg (by simp), List.filter_cons_of_neg (by simp)]
    · simp only [dictInsert, if_neg hk]
      unfold dictRemove at ih ⊢
      rw [List.filter_cons_of_pos (by simp [hk]),
        List.filter_cons_of_pos (by simp [hk]), ih]

theorem mem_dictModify {α β : Type} [DecidableEq α] {k : α} {f : β → β}
    {l : List (α × β)} {q : α × β} (hq : q ∈ dictModify k f l) :
    q ∈ l ∨ ∃ v, (k, v) ∈ l ∧ q = (k, f v) := by
  induction l with
  | nil => exact absurd hq (List.not_mem_nil q)
  | cons p rest ih =>
    obtain ⟨k', v⟩ := p
    by_cases hk : k' = k
    · subst hk
      simp only [dictModify, if_pos rfl] at hq
      rcases List.mem_cons.mp hq with rfl | hmem
      · exact Or.inr ⟨v, List.mem_cons_self _ _, rfl⟩
      · exact Or.inl (List.mem_cons_of_mem _ hmem)
    · simp only [dictModify, if_neg hk] at hq
      rcases List.mem_cons.mp hq with rfl | hmem
      · exact Or.inl (List.mem_cons_self _ _)
      · rcases ih hmem with h | ⟨v', hv', hqv⟩
        · exact Or.inl (List.mem_cons_of_mem _ h)
        · exact Or.inr ⟨v', List.mem_cons_of_mem _ hv', hqv⟩

theorem dictRemove_eq_self {α β : Type} [DecidableEq α] {k : α}
    {l : List (α × β)} (h : ∀ p ∈ l, p.1 ≠ k) : dictRemove k l = l := by
  unfold dictRemove
  rw [List.filter_eq_self]
  intro p hp
  simpa using h p hp

theorem dictGet_any_isSome {α β : Type} [DecidableEq α] {k : α}
    {l : List (α × β)} (h : l.any (fun p => p.1 = k) = true) :
    ∃ v, dictGet k l = some v := by
  obtain ⟨p, hp, hpk⟩ := List.any_eq_true.mp h
  cases hf : l.find? (fun p => p.1 = k) with
  | none =>
    have h2 := List.find?_eq_none.mp hf p hp
    simp only at h2 hpk
    exact absurd hpk h2
  | some q => exact ⟨q.2, by unfold dictGet; rw [hf]; rfl⟩

/-- `find?` over the attached-volumes block after inserting `id` into
the (possibly fresh) host directory, when no directory previously held
`id`. -/
theorem find?_attached_insert (attached : List (PyStr × List (PyStr × Nat)))
    (id host : PyStr) (s : Nat)
    (hno : ∀ hd ∈ attached, ∀ p ∈ hd.2, p.1 ≠ id) :
    ((dictModify host (dictInsert id s)
        (if attached.any (fun hd => hd.1 = host) = true then attached
         else attached ++ [(host, [])])).flatMap
      (fun hd => hd.2.map (fun p =>
        _blockdevicevolume_from_blockdevice_id p.1 p.2 (some hd.1)))).find?
      (fun v => v.blockdevice_id = id) =
    some (_blockdevicevolume_from_blockdevice_id id s (some host)) := by
  induction attached with
  | nil =>
    rw [if_neg (by simp), List.nil_append]
    simp only [dictModify, if_true]
    simp only [dictInsert, List.flatMap_cons, List.flatMap_nil, List.map_cons,
      List.map_nil, List.append_nil]
    rw [List.find?_cons_of_pos _ (by simp [_blockdevicevolume_from_blockdevice_id])]
  | cons hd rest ih =>
    obtain ⟨hname, files⟩ := hd
    have hfiles : ∀ p ∈ files, p.1 ≠ id :=
      hno (hname, files) (List.mem_cons_self _ _)
    have hrest : ∀ hd' ∈ rest, ∀ p ∈ hd'.2, p.1 ≠ id :=
      fun hd' h' => hno hd' (List.mem_cons_of_mem _ h')
    have hfilesfind : (files.map (fun p =>
        _blockdevicevolume_from_blockdevice_id p.1 p.2 (some hname))).find?
        (fun v => v.blockdevice_id = id) = none := by
      rw [find?_volumes_map]
      have hfn : files.find? (fun p => p.1 = id) = none := by
        rw [List.find?_eq_none]
        intro p hp
        simpa using hfiles p hp
      rw [hfn]
      rfl
    by_cases hh : hname = host
    · subst hh
      rw [if_pos (by simp)]
      simp only [dictModify, if_true]
      simp only [List.flatMap_cons]
      rw [dictInsert_of_not_mem s hfiles, List.map_append]
      rw [List.append_assoc, find?_append_none _ hfilesfind]
      simp only [List.map_cons, List.map_nil, List.singleton_append]
      rw [List.find?_cons_of_pos _ (by simp [_blockdevicevolume_from_blockdevice_id])]
    · have hcond : (((hname, files) :: rest).any (fun hd => hd.1 = host)) =
          (rest.any (fun hd => hd.1 = host)) := by
        simp [List.any_cons, hh]
      rw [hcond]
      have hsplit : (if rest.any (fun hd => hd.1 = host) = true
            then (hname, files) :: rest
            else ((hname, files) :: rest) ++ [(host, [])]) =
          (hname, files) :: (if rest.any (fun hd => hd.1 = host) = true
            then rest else rest ++ [(host, [])]) := by
        by_cases hc : rest.any (fun hd => hd.1 = host) = true
        · rw [if_pos hc, if_pos hc]
        · rw [if_neg hc, if_neg hc]
          rfl
      rw [hsplit]
      simp only [dictModify]
      rw [if_neg hh]
      simp only [List.flatMap_cons]
      rw [find?_append_none _ hfilesfind]
      exact ih hrest

theorem dictModify_dictModify {α β : Type} [DecidableEq α] (k : α) (f g : β → β)
    (l : List (α × β)) :
    dictModify k f (dictModify k g l) = dictModify k (fun v => f (g v)) l := by
  induction l with
  | nil => rfl
  | cons p rest ih =>
    obtain ⟨k', v⟩ := p
    by_cases hk : k' = k
    · simp only [dictModify, if_pos hk]
    · simp only [dictModify, if_neg hk]
      rw [ih]

/-- The world after a successful `attach_volume id host` starting from a
world whose `unattached/<id>` file has size `s` (a proof abbreviation,
not a source function). -/
def attachResultWorld (api : LoopbackBlockDeviceAPI) (w : LoopWorld)
    (id host : PyStr) (s : Nat) : LoopWorld :=
  { w with unattached := dictRemove id w.unattached,
           attached := dictModify host (dictInsert id s)
             (if w.attached.any (fun hd => hd.1 = host) = true then w.attached
              else w.attached ++ [(host, [])]),
           loop_table := w.loop_table ++
             [(loopDevice w.next_loop, api.attachedPath host id)],
           next_loop := w.next_loop + 1,
           events := w.events ++ [Event.attachVolume id host] }

/-- The world after the subsequent successful `detach_volume id` (a
proof abbreviation, not a source function). -/
def detachResultWorld (api : LoopbackBlockDeviceAPI) (w : LoopWorld)
    (id host : PyStr) (s : Nat) : LoopWorld :=
  let w1 := attachResultWorld api w id host s
  let w1e := { w1 with events := w1.events ++ [Event.getDevicePath id] }
  let w2 := { w1e with loop_table :=
    w1e.loop_table.filter (fun p => p.1 ≠ loopDevice w.next_loop) }
  { w2 with attached := dictModify host (dictRemove id) w2.attached,
            unattached := dictInsert id s w2.unattached }

theorem attach_eq (api : LoopbackBlockDeviceAPI) (w : LoopWorld)
    (id host : PyStr) (s : Nat)
    (h1 : dictGet id w.unattached = some s) :
    api.attach_volume id host w =
      .ok (_blockdevicevolume_from_blockdevice_id id s (some host),
           attachResultWorld api w id host s) := by
  unfold LoopbackBlockDeviceAPI.attach_volume LoopbackBlockDeviceAPI._get
  rw [list_volumes_find_unattached api w h1]
  simp only [except_ok_bind, _blockdevicevolume_from_blockdevice_id]
  rw [h1]
  rfl

theorem find2_eq (api : LoopbackBlockDeviceAPI) (w : LoopWorld)
    (id host : PyStr) (s : Nat)
    (h2 : ∀ hd ∈ w.attached, ∀ p ∈ hd.2, p.1 ≠ id) :
    ((api.list_volumes (attachResultWorld api w id host s)).find?
      (fun v => v.blockdevice_id = id)) =
    some (_blockdevicevolume_from_blockdevice_id id s (some host)) := by
  unfold LoopbackBlockDeviceAPI.list_volumes attachResultWorld
  simp only
  rw [find?_append_none]
  · exact find?_attached_insert w.attached id host s h2
  · rw [find?_volumes_map]
    have hrm : (dictRemove id w.unattached).find? (fun p => p.1 = id) = none := by
      rw [List.find?_eq_none]
      intro p hp
      rcases List.mem_filter.mp hp with ⟨-, hne⟩
      simpa using hne
    rw [hrm]
    rfl

theorem gdp_eq (api : LoopbackBlockDeviceAPI) (w : LoopWorld)
    (id host : PyStr) (s : Nat)
    (h2 : ∀ hd ∈ w.attached, ∀ p ∈ hd.2, p.1 ≠ id)
    (h3 : ∀ e ∈ w.loop_table, e.2 ≠ api.attachedPath host id) :
    api.get_device_path id (attachResultWorld api w id host s) =
      .ok (some (loopDevice w.next_loop),
        { attachResultWorld api w id host s with
          events := (attachResultWorld api w id host s).events ++
            [Event.getDevicePath id] }) := by
  have hdev : (attachResultWorld api w id host s).loop_table.find?
      (fun p => p.2 = api.attachedPath host id) =
      some (loopDevice w.next_loop, api.attachedPath host id) := by
    show (w.loop_table ++ [(loopDevice w.next_loop, api.attachedPath host id)]).find?
      (fun p => p.2 = api.attachedPath host id) = _
    rw [find?_append_none]
    · rw [List.find?_cons_of_pos _ (by simp)]
    · rw [List.find?_eq_none]
      intro e he
      simpa using h3 e he
  unfold LoopbackBlockDeviceAPI.get_device_path LoopbackBlockDeviceAPI._get
  rw [find2_eq api w id host s h2]
  simp only [except_ok_bind, _blockdevicevolume_from_blockdevice_id]
  unfold _device_for_path
  rw [hdev]
  rfl

theorem detach_eq (api : LoopbackBlockDeviceAPI) (w : LoopWorld)
    (id host : PyStr) (s : Nat)
    (h2 : ∀ hd ∈ w.attached, ∀ p ∈ hd.2, p.1 ≠ id)
    (h3 : ∀ e ∈ w.loop_table, e.2 ≠ api.attachedPath host id) :
    api.detach_volume id (attachResultWorld api w id host s) =
      .ok (detachResultWorld api w id host s) := by
  have hfs : (dictGet host (attachResultWorld api w id host s).attached).bind
      (fun files => dictGet id files) = some s := by
    show (dictGet host (dictModify host (dictInsert id s)
      (if w.attached.any (fun hd => hd.1 = host) = true then w.attached
       else w.attached ++ [(host, [])]))).bind (fun files => dictGet id files) = _
    rw [dictGet_dictModify_self]
    have hA1 : ∃ files0, dictGet host
        (if w.attached.any (fun hd => hd.1 = host) = true then w.attached
         else w.attached ++ [(host, [])]) = some files0 := by
      by_cases hany : w.attached.any (fun hd => hd.1 = host) = true
      · rw [if_pos hany]
        exact dictGet_any_isSome hany
      · rw [if_neg hany]
        refine ⟨[], ?_⟩
        unfold dictGet
        rw [find?_append_none]
        · rw [List.find?_cons_of_pos _ (by simp)]
          rfl
        · rw [List.find?_eq_none]
          intro p hp hph
          exact hany (List.any_eq_true.mpr ⟨p, hp, hph⟩)
    obtain ⟨files0, hf0⟩ := hA1
    rw [hf0]
    show (some (dictInsert id s files0)).bind (fun files => dictGet id files) = _
    rw [Option.some_bind]
    exact dictGet_dictInsert_self id s files0
  unfold LoopbackBlockDeviceAPI.detach_volume LoopbackBlockDeviceAPI._get
  rw [find2_eq api w id host s h2]
  simp only [except_ok_bind, _blockdevicevolume_from_blockdevice_id]
  rw [gdp_eq api w id host s h2 h3]
  simp only [except_ok_bind]
  rw [hfs]
  rfl

/-- Claim C7: for an existing unattached volume `id` (of size `s`, with
no attached copy of the same name and no stale loop entry for the target
backing path) and any host, a successful `attach_volume id host`
followed by `detach_volume id` returns the volume to the unattached
state: the backing file is back at `unattached/<id>` with its size, no
attached directory holds it, and `list_volumes` reports it with `host`
unattached again. -/
theorem attach_detach_roundtrip (api : LoopbackBlockDeviceAPI) (w : LoopWorld)
    (id host : PyStr) (s : Nat)
    (h1 : dictGet id w.unattached = some s)
    (h2 : ∀ hd ∈ w.attached, ∀ p ∈ hd.2, p.1 ≠ id)
    (h3 : ∀ e ∈ w.loop_table, e.2 ≠ api.attachedPath host id) :
    api.attach_volume id host w =
      .ok (_blockdevicevolume_from_blockdevice_id id s (some host),
           attachResultWorld api w id host s) ∧
    api.detach_volume id (attachResultWorld api w id host s) =
      .ok (detachResultWorld api w id host s) ∧
    dictGet id (detachResultWorld api w id host s).unattached = some s ∧
    (∀ hd ∈ (detachResultWorld api w id host s).attached, ∀ p ∈ hd.2, p.1 ≠ id) ∧
    ∃ u ∈ api.list_volumes (detachResultWorld api w id host s),
      u.blockdevice_id = id ∧ u.host = none ∧ u.size = s := by
  refine ⟨attach_eq api w id host s h1, detach_eq api w id host s h2 h3, ?_, ?_, ?_⟩
  · show dictGet id (dictInsert id s
      (dictRemove id w.unattached)) = some s
    exact dictGet_dictInsert_self id s _
  · show ∀ hd ∈ dictModify host (dictRemove id)
      (dictModify host (dictInsert id s)
        (if w.attached.any (fun hd => hd.1 = host) = true then w.attached
         else w.attached ++ [(host, [])])), ∀ p ∈ hd.2, p.1 ≠ id
    rw [dictModify_dictModify]
    intro hd hmem p hp
    rcases mem_dictModify hmem with hin | ⟨v, hv, hdv⟩
    · by_cases hany : w.attached.any (fun hd => hd.1 = host) = true
      · rw [if_pos hany] at hin
        exact h2 hd hin p hp
      · rw [if_neg hany] at hin
        rcases List.mem_append.mp hin with hin' | hin'
        · exact h2 hd hin' p hp
        · rcases List.mem_singleton.mp hin' with rfl
          exact absurd hp (List.not_mem_nil p)
    · rw [hdv] at hp
      simp only at hp
      rcases List.mem_filter.mp hp with ⟨-, hne⟩
      simpa using hne
  · refine ⟨_blockdevicevolume_from_blockdevice_id id s none, ?_, rfl, rfl, rfl⟩
    show _ ∈ api.list_volumes (detachResultWorld api w id host s)
    unfold LoopbackBlockDeviceAPI.list_volumes
    refine List.mem_append_left _ (List.mem_map.mpr ⟨(id, s), ?_, rfl⟩)
    show (id, s) ∈ dictInsert id s (dictRemove id w.unattached)
    exact mem_dictInsert_self _ _ _

/-- Witness for claim C7: attach then detach of the unattached volume
`block-u` to host `h2` in the concrete world restores its
`unattached/block-u` entry with its size. -/
theorem attach_detach_roundtrip_witness :
    apiW.attach_volume "block-u".toList "h2".toList wC8 =
      .ok (_blockdevicevolume_from_blockdevice_id "block-u".toList 3
             (some "h2".toList),
           attachResultWorld apiW wC8 "block-u".toList "h2".toList 3) ∧
    apiW.detach_volume "block-u".toList
        (attachResultWorld apiW wC8 "block-u".toList "h2".toList 3) =
      .ok (detachResultWorld apiW wC8 "block-u".toList "h2".toList 3) ∧
    dictGet "block-u".toList
        (detachResultWorld apiW wC8 "block-u".toList "h2".toList 3).unattached =
      some 3 := by
  have h := attach_detach_roundtrip apiW wC8 "block-u".toList "h2".toList 3
    (by decide) (by decide) (by decide)
  exact ⟨h.1, h.2.1, h.2.2.1⟩

/-! ## Discovery

`discover_state` and `_get_system_mounts` are generic over the
provider: the embedding abstracts `api.get_device_path` as a total
function `device_path` on attached volumes' identifiers, and psutil's
partition enumeration as the list `partitions` of `(device, mountpoint)`
pairs.  Python dictionary comprehensions and the loops of the source
write each dictionary independently per iteration, so they are embedded
as independent folds (`dictInsertMany`) over the same traversal. -/

/-- A fold inserting `f x` (when present) for each traversed element:
the embedding of a Python dict comprehension or an insert-only loop. -/
def dictInsertMany {α β γ : Type} [DecidableEq α] (f : γ → Option (α × β))
    (l : List γ) (acc : List (α × β)) : List (α × β) :=
  l.foldl (fun d x =>
    match f x with
    | some q => dictInsert q.1 q.2 d
    | none => d) acc

/-- `Dataset(dataset_id=dataset_id)` as constructed by discovery for
non-manifest datasets. -/
def nmDataset (dataset_id : PyStr) : Dataset :=
  { dataset_id := dataset_id, maximum_size := none, deleted := false }

/-- `_manifestation_from_volume`. -/
def _manifestation_from_volume (volume : BlockDeviceVolume) : Manifestation :=
  { dataset := { dataset_id := volume.dataset_id,
                 maximum_size := some volume.size, deleted := false },
    primary := true }

/-- `BlockDeviceDeployer._get_system_mounts`: the device-to-dataset
mapping over the volumes attached to this host, joined against the
partition table to give `mountpoint ↦ dataset_id`. -/
def BlockDeviceDeployer._get_system_mounts (deployer : BlockDeviceDeployer)
    (device_path : PyStr → FPath) (volumes : List BlockDeviceVolume)
    (partitions : List (FPath × FPath)) : List (FPath × PyStr) :=
  let device_to_dataset_id := dictInsertMany (fun v =>
    if v.host = some deployer.hostname
    then some (device_path v.blockdevice_id, v.dataset_id)
    else none) volumes []
  dictInsertMany (fun q =>
    (dictGet q.1 device_to_dataset_id).map (fun dataset_id => (q.2, dataset_id)))
    partitions []

/-- `BlockDeviceDeployer.discover_state`: partition the volumes into
candidate local manifestations (attached here) and non-manifest datasets
(unattached); volumes attached elsewhere are ignored.  Then, for each
candidate (iterating the snapshot of the manifestation values), keep it
and record its mount path only when the expected mountpath
`mountroot/dataset_id` is actually mounted from the expected device;
otherwise demote it into the non-manifest datasets. -/
def BlockDeviceDeployer.discover_state (deployer : BlockDeviceDeployer)
    (device_path : PyStr → FPath) (volumes : List BlockDeviceVolume)
    (partitions : List (FPath × FPath)) :
    NodeState × Option NonManifestDatasets :=
  let manifestations := dictInsertMany (fun v =>
    if v.host = some deployer.hostname
    then some (v.dataset_id, _manifestation_from_volume v)
    else none) volumes []
  let nonmanifest0 := dictInsertMany (fun v =>
    if v.host = some deployer.hostname then none
    else if v.host = none then some (v.dataset_id, nmDataset v.dataset_id)
    else none) volumes []
  let system_mounts :=
    deployer._get_system_mounts device_path volumes partitions
  let snapshot := manifestations.map Prod.snd
  let properly_mounted := fun (m : Manifestation) =>
    dictGet (deployer.mountroot ++ [m.dataset.dataset_id]) system_mounts =
      some m.dataset.dataset_id
  let paths := dictInsertMany (fun m =>
    if properly_mounted m
    then some (m.dataset.dataset_id, deployer.mountroot ++ [m.dataset.dataset_id])
    else none) snapshot []
  let manifestations1 := snapshot.foldl (fun d m =>
    if properly_mounted m then d else dictRemove m.dataset.dataset_id d)
    manifestations
  let nonmanifest := dictInsertMany (fun m =>
    if properly_mounted m then none
    else some (m.dataset.dataset_id, nmDataset m.dataset.dataset_id))
    snapshot nonmanifest0
  ({ hostname := deployer.hostname, manifestations := manifestations1,
     paths := paths },
   if nonmanifest = [] then none else some { datasets := nonmanifest })

/-- The non-manifest datasets reported by a discovery result. -/
def nonmanifestOf (r : NodeState × Option NonManifestDatasets) :
    List (PyStr × Dataset) :=
  match r.2 with
  | none => []
  | some n => n.datasets

theorem dictInsertMany_eq {α β γ : Type} [DecidableEq α] (f : γ → Option (α × β)) :
    ∀ (l : List γ) (acc : List (α × β)),
    ((l.filterMap f).map Prod.fst).Nodup →
    (∀ x ∈ l, ∀ q : α × β, f x = some q → ∀ p ∈ acc, p.1 ≠ q.1) →
    dictInsertMany f l acc = acc ++ l.filterMap f := by
  intro l
  induction l with
  | nil =>
    intro acc _ _
    simp [dictInsertMany]
  | cons x rest ih =>
    intro acc hnd hfresh
    cases hf : f x with
    | none =>
      have hstep : dictInsertMany f (x :: rest) acc = dictInsertMany f rest acc := by
        unfold dictInsertMany
        rw [List.foldl_cons, hf]
      rw [hstep, List.filterMap_cons_none hf,
        ih acc (by rwa [List.filterMap_cons_none hf] at hnd)
          (fun y hy => hfresh y (List.mem_cons_of_mem _ hy))]
    | some q =>
      have hnd' := hnd
      rw [List.filterMap_cons_some hf, List.map_cons, List.nodup_cons] at hnd'
      have hstep : dictInsertMany f (x :: rest) acc =
          dictInsertMany f rest (dictInsert q.1 q.2 acc) := by
        unfold dictInsertMany
        rw [List.foldl_cons, hf]
      have hins : dictInsert q.1 q.2 acc = acc ++ [q] := by
        rw [dictInsert_of_not_mem q.2
          (fun p hp => hfresh x (List.mem_cons_self _ _) q hf p hp)]
      rw [hstep, hins, List.filterMap_cons_some hf,
        ih (acc ++ [q]) hnd'.2 ?_]
      · rw [List.append_assoc]
        rfl
      · intro y hy q' hq' p hp
        rcases List.mem_append.mp hp with hp1 | hp2
        · exact hfresh y (List.mem_cons_of_mem _ hy) q' hq' p hp1
        · rcases List.mem_singleton.mp hp2 with rfl
          intro he
          exact hnd'.1 (he ▸ List.mem_map.mpr
            ⟨q', List.mem_filterMap.mpr ⟨y, hy, hq'⟩, rfl⟩)

theorem mem_keys_filterMap {α β γ : Type} [DecidableEq α]
    {f : γ → Option (α × β)} {l : List γ} {k : α}
    (h : k ∈ (l.filterMap f).map Prod.fst) :
    ∃ x ∈ l, ∃ q : α × β, f x = some q ∧ q.1 = k := by
  obtain ⟨q, hq, hk⟩ := List.mem_map.mp h
  obtain ⟨x, hx, hfx⟩ := List.mem_filterMap.mp hq
  exact ⟨x, hx, q, hfx, hk⟩

theorem dictGet_filter_of_nodup {α β : Type} [DecidableEq α]
    {l : List (α × β)} (hnd : (l.map Prod.fst).Nodup) (q : α × β → Bool) (k : α) :
    dictGet k (l.filter q) =
      match dictGet k l with
      | some v => if q (k, v) = true then some v else none
      | none => none := by
  have hndf : ((l.filter q).map Prod.fst).Nodup :=
    List.Nodup.sublist (List.Sublist.map _ (List.filter_sublist l)) hnd
  cases hg : dictGet k l with
  | none =>
    cases hgf : dictGet k (l.filter q) with
    | none => rfl
    | some v =>
      have hmem := (dictGet_eq_some_iff_mem hndf).mp hgf
      have hsub := (List.filter_sublist l).subset hmem
      have := (dictGet_eq_some_iff_mem hnd).mpr hsub
      rw [hg] at this
      exact Option.noConfusion this
  | some v =>
    show dictGet k (l.filter q) = if q (k, v) = true then some v else none
    have hmem := (dictGet_eq_some_iff_mem hnd).mp hg
    by_cases hq : q (k, v) = true
    · rw [if_pos hq]
      exact (dictGet_eq_some_iff_mem hndf).mpr (List.mem_filter.mpr ⟨hmem, hq⟩)
    · rw [if_neg hq]
      cases hgf : dictGet k (l.filter q) with
      | none => rfl
      | some v' =>
        have hmem' := (dictGet_eq_some_iff_mem hndf).mp hgf
        rcases List.mem_filter.mp hmem' with ⟨hin, hq'⟩
        have := (dictGet_eq_some_iff_mem hnd).mpr hin
        rw [hg] at this
        have hvv : v' = v := (Option.some.inj this).symm
        rw [hvv] at hq'
        exact absurd hq' hq

theorem filterMap_ite {γ δ : Type} (P : γ → Prop) [DecidablePred P]
    (g : γ → δ) (l : List γ) :
    l.filterMap (fun x => if P x then some (g x) else none) =
    (l.filter (fun x => decide (P x))).map g := by
  induction l with
  | nil => rfl
  | cons x rest ih =>
    by_cases hx : P x
    · rw [List.filterMap_cons_some (by rw [if_pos hx]),
        List.filter_cons_of_pos (by simpa using hx), List.map_cons, ih]
    · rw [List.filterMap_cons_none (by rw [if_neg hx]),
        List.filter_cons_of_neg (by simpa using hx), ih]

theorem filterMap_ite_not {γ δ : Type} (P : γ → Prop) [DecidablePred P]
    (g : γ → δ) (l : List γ) :
    l.filterMap (fun x => if P x then none else some (g x)) =
    (l.filter (fun x => ! decide (P x))).map g := by
  induction l with
  | nil => rfl
  | cons x rest ih =>
    by_cases hx : P x
    · rw [List.filterMap_cons_none (by rw [if_pos hx]),
        List.filter_cons_of_neg (by simpa using hx), ih]
    · rw [List.filterMap_cons_some (by rw [if_neg hx]),
        List.filter_cons_of_pos (by simpa using hx), List.map_cons, ih]

theorem filterMap_nonmanifest0 (hostname : PyStr) (volumes : List BlockDeviceVolume) :
    volumes.filterMap (fun v =>
      if v.host = some hostname then none
      else if v.host = none then some (v.dataset_id, nmDataset v.dataset_id)
      else none) =
    (volumes.filter (fun v => v.host = none)).map
      (fun v => (v.dataset_id, nmDataset v.dataset_id)) := by
  induction volumes with
  | nil => rfl
  | cons v rest ih =>
    rcases hh : v.host with _ | h
    · rw [List.filterMap_cons_some (by rw [hh]; rfl),
        List.filter_cons_of_pos (by simp [hh]), List.map_cons, ih]
    · by_cases hhn : h = hostname
      · subst hhn
        rw [List.filterMap_cons_none (by rw [hh]; rw [if_pos rfl]),
          List.filter_cons_of_neg (by simp [hh]), ih]
      · rw [List.filterMap_cons_none
          (by rw [hh]; rw [if_neg (by simpa using hhn)]; rfl),
          List.filter_cons_of_neg (by simp [hh]), ih]

theorem keys_filterMap_optionMap_sublist {γ α β δ : Type}
    (g : γ → Option δ) (k : γ → α) (h' : γ → δ → β) (l : List γ) :
    ((l.filterMap (fun q => (g q).map (fun y => (k q, h' q y)))).map
      Prod.fst).Sublist (l.map k) := by
  induction l with
  | nil => exact List.Sublist.refl _
  | cons q rest ih =>
    cases hg : g q with
    | none =>
      rw [List.filterMap_cons_none (by rw [hg]; rfl), List.map_cons]
      exact ih.cons _
    | some y =>
      rw [List.filterMap_cons_some (by rw [hg]; rfl), List.map_cons, List.map_cons]
      exact ih.cons₂ _

theorem foldl_dictRemove_filter {α β γ : Type} [DecidableEq α]
    (P : γ → Prop) [DecidablePred P] (key : γ → α) (l : List γ) :
    ∀ d : List (α × β),
    l.foldl (fun d m => if P m then d else dictRemove (key m) d) d =
      d.filter (fun p => l.all (fun m => decide (P m) || decide (p.1 ≠ key m))) := by
  induction l with
  | nil =>
    intro d
    rw [List.foldl_nil, List.filter_eq_self.mpr]
    intro p _
    simp
  | cons m rest ih =>
    intro d
    rw [List.foldl_cons]
    by_cases hm : P m
    · rw [if_pos hm, ih d]
      refine List.filter_congr ?_
      intro p _
      simp [List.all_cons, hm]
    · rw [if_neg hm, ih (dictRemove (key m) d)]
      unfold dictRemove
      rw [List.filter_filter]
      refine List.filter_congr ?_
      intro p _
      simp only [List.all_cons, decide_eq_true_eq]
      rw [Bool.and_comm]
      simp [hm]

theorem dictGet_append {α β : Type} [DecidableEq α] (k : α) (l1 l2 : List (α × β)) :
    dictGet k (l1 ++ l2) =
      match dictGet k l1 with
      | some v => some v
      | none => dictGet k l2 := by
  cases hf : l1.find? (fun p => p.1 = k) with
  | none =>
    unfold dictGet
    rw [find?_append_none _ hf, hf]
    rfl
  | some q =>
    unfold dictGet
    rw [find?_append_some hf, hf]
    rfl

theorem discover_manifs0_eq (hostname : PyStr) (volumes : List BlockDeviceVolume)
    (hND : (volumes.map BlockDeviceVolume.dataset_id).Nodup) :
    dictInsertMany (fun v =>
      if v.host = some hostname
      then some (v.dataset_id, _manifestation_from_volume v) else none) volumes [] =
    (volumes.filter (fun v => v.host = some hostname)).map
      (fun v => (v.dataset_id, _manifestation_from_volume v)) := by
  rw [dictInsertMany_eq _ volumes [] ?hnd ?hfresh, List.nil_append,
    filterMap_ite (fun v => v.host = some hostname)
      (fun v => (v.dataset_id, _manifestation_from_volume v)) volumes]
  case hfresh =>
    intro x hx q hq p hp
    exact absurd hp (List.not_mem_nil p)
  case hnd =>
    rw [filterMap_ite (fun v => v.host = some hostname)
      (fun v => (v.dataset_id, _manifestation_from_volume v)) volumes]
    rw [List.map_map]
    exact List.Nodup.sublist
      (List.Sublist.map _ (List.filter_sublist volumes)) hND

theorem discover_nonmanifest0_eq (hostname : PyStr)
    (volumes : List BlockDeviceVolume)
    (hND : (volumes.map BlockDeviceVolume.dataset_id).Nodup) :
    dictInsertMany (fun v =>
      if v.host = some hostname then none
      else if v.host = none then some (v.dataset_id, nmDataset v.dataset_id)
      else none) volumes [] =
    (volumes.filter (fun v => v.host = none)).map
      (fun v => (v.dataset_id, nmDataset v.dataset_id)) := by
  rw [dictInsertMany_eq _ volumes [] ?hnd ?hfresh, List.nil_append,
    filterMap_nonmanifest0 hostname volumes]
  case hfresh =>
    intro x hx q hq p hp
    exact absurd hp (List.not_mem_nil p)
  case hnd =>
    rw [filterMap_nonmanifest0 hostname volumes, List.map_map]
    exact List.Nodup.sublist
      (List.Sublist.map _ (List.filter_sublist volumes)) hND

theorem volumes_id_injective {volumes : List BlockDeviceVolume}
    (hND : (volumes.map BlockDeviceVolume.dataset_id).Nodup) :
    ∀ u ∈ volumes, ∀ v ∈ volumes, u.dataset_id = v.dataset_id → u = v := by
  intro u hu v hv he
  exact List.inj_on_of_nodup_map hND hu hv he

theorem discover_dmap_eq (hostname : PyStr) (device_path : PyStr → FPath)
    (volumes : List BlockDeviceVolume)
    (hND : (volumes.map BlockDeviceVolume.dataset_id).Nodup)
    (hDP : ∀ u ∈ volumes, ∀ v ∈ volumes, u.host = some hostname →
      v.host = some hostname →
      device_path u.blockdevice_id = device_path v.blockdevice_id → u = v) :
    dictInsertMany (fun v =>
      if v.host = some hostname
      then some (device_path v.blockdevice_id, v.dataset_id) else none)
      volumes [] =
    (volumes.filter (fun v => v.host = some hostname)).map
      (fun v => (device_path v.blockdevice_id, v.dataset_id)) ∧
    (((volumes.filter (fun v => v.host = some hostname)).map
      (fun v => (device_path v.blockdevice_id, v.dataset_id))).map
        Prod.fst).Nodup := by
  have hvnd : volumes.Nodup := List.Nodup.of_map _ hND
  have hkeys : (((volumes.filter (fun v => v.host = some hostname)).map
      (fun v => (device_path v.blockdevice_id, v.dataset_id))).map
        Prod.fst).Nodup := by
    rw [List.map_map]
    refine List.Nodup.map_on ?_ (List.Nodup.sublist (List.filter_sublist volumes) hvnd)
    intro x hx y hy he
    rcases List.mem_filter.mp hx with ⟨hx1, hx2⟩
    rcases List.mem_filter.mp hy with ⟨hy1, hy2⟩
    exact hDP x hx1 y hy1 (by simpa using hx2) (by simpa using hy2) he
  refine ⟨?_, hkeys⟩
  rw [dictInsertMany_eq _ volumes [] ?hnd ?hfresh, List.nil_append,
    filterMap_ite (fun v => v.host = some hostname)
      (fun v => (device_path v.blockdevice_id, v.dataset_id)) volumes]
  case hfresh =>
    intro x hx q hq p hp
    exact absurd hp (List.not_mem_nil p)
  case hnd =>
    rw [filterMap_ite (fun v => v.host = some hostname)
      (fun v => (device_path v.blockdevice_id, v.dataset_id)) volumes]
    exact hkeys

theorem discover_mounts_get (deployer : BlockDeviceDeployer)
    (device_path : PyStr → FPath) (volumes : List BlockDeviceVolume)
    (partitions : List (FPath × FPath))
    (hND : (volumes.map BlockDeviceVolume.dataset_id).Nodup)
    (hMP : (partitions.map Prod.snd).Nodup)
    (hDP : ∀ u ∈ volumes, ∀ v ∈ volumes, u.host = some deployer.hostname →
      v.host = some deployer.hostname →
      device_path u.blockdevice_id = device_path v.blockdevice_id → u = v)
    (mp : FPath) (did : PyStr) :
    dictGet mp (deployer._get_system_mounts device_path volumes partitions) =
      some did ↔
    ∃ q ∈ partitions, q.2 = mp ∧ ∃ u ∈ volumes,
      u.host = some deployer.hostname ∧
      device_path u.blockdevice_id = q.1 ∧ u.dataset_id = did := by
  obtain ⟨hdm, hdmk⟩ := discover_dmap_eq deployer.hostname device_path volumes hND hDP
  have hmounts : deployer._get_system_mounts device_path volumes partitions =
      partitions.filterMap (fun q =>
        (dictGet q.1 ((volumes.filter (fun v => v.host = some deployer.hostname)).map
          (fun v => (device_path v.blockdevice_id, v.dataset_id)))).map
            (fun dataset_id => (q.2, dataset_id))) := by
    unfold BlockDeviceDeployer._get_system_mounts
    rw [hdm]
    rw [dictInsertMany_eq _ partitions [] ?hnd ?hfresh, List.nil_append]
    case hfresh =>
      intro x hx q hq p hp
      exact absurd hp (List.not_mem_nil p)
    case hnd =>
      exact List.Nodup.sublist
        (keys_filterMap_optionMap_sublist _ _ _ partitions) hMP
  have hmkeys : ((partitions.filterMap (fun q =>
      (dictGet q.1 ((volumes.filter (fun v => v.host = some deployer.hostname)).map
        (fun v => (device_path v.blockdevice_id, v.dataset_id)))).map
          (fun dataset_id => (q.2, dataset_id)))).map Prod.fst).Nodup :=
    List.Nodup.sublist (keys_filterMap_optionMap_sublist _ _ _ partitions) hMP
  rw [hmounts, dictGet_eq_some_iff_mem hmkeys, List.mem_filterMap]
  constructor
  · rintro ⟨q, hq, hfq⟩
    obtain ⟨did', hg, heq⟩ := Option.map_eq_some'.mp hfq
    have h2 : q.2 = mp := congrArg Prod.fst heq
    have h3 : did' = did := congrArg Prod.snd heq
    subst h3
    obtain ⟨u, hu, hue⟩ := List.mem_map.mp ((dictGet_eq_some_iff_mem hdmk).mp hg)
    rcases List.mem_filter.mp hu with ⟨hu1, hu2⟩
    refine ⟨q, hq, h2, u, hu1, by simpa using hu2, ?_, ?_⟩
    · exact congrArg Prod.fst hue
    · exact congrArg Prod.snd hue
  · rintro ⟨q, hq, h2, u, hu, huh, hud, huid⟩
    refine ⟨q, hq, ?_⟩
    have hg : dictGet q.1 ((volumes.filter (fun v => v.host = some deployer.hostname)).map
        (fun v => (device_path v.blockdevice_id, v.dataset_id))) = some did := by
      refine (dictGet_eq_some_iff_mem hdmk).mpr ?_
      refine List.mem_map.mpr ⟨u, List.mem_filter.mpr ⟨hu, by simpa using huh⟩, ?_⟩
      rw [hud, huid]
    rw [hg]
    simp only [Option.map_some']
    rw [h2]


theorem discover_proper_iff (deployer : BlockDeviceDeployer)
    (device_path : PyStr → FPath) (volumes : List BlockDeviceVolume)
    (partitions : List (FPath × FPath))
    (hND : (volumes.map BlockDeviceVolume.dataset_id).Nodup)
    (hMP : (partitions.map Prod.snd).Nodup)
    (hDP : ∀ u ∈ volumes, ∀ v ∈ volumes, u.host = some deployer.hostname →
      v.host = some deployer.hostname →
      device_path u.blockdevice_id = device_path v.blockdevice_id → u = v)
    (v : BlockDeviceVolume) (hv : v ∈ volumes)
    (hvh : v.host = some deployer.hostname) :
    (dictGet (deployer.mountroot ++ [v.dataset_id])
        (deployer._get_system_mounts device_path volumes partitions) =
      some v.dataset_id) ↔
    (device_path v.blockdevice_id, deployer.mountroot ++ [v.dataset_id]) ∈
      partitions := by
  rw [discover_mounts_get deployer device_path volumes partitions hND hMP hDP]
  constructor
  · rintro ⟨q, hq, h2, u, hu, huh, hud, huid⟩
    have huv : u = v := volumes_id_injective hND u hu v hv huid
    subst huv
    have hqe : q = (device_path u.blockdevice_id,
        deployer.mountroot ++ [u.dataset_id]) :=
      Prod.ext hud.symm h2
    rw [← hqe]
    exact hq
  · intro hmem
    exact ⟨(device_path v.blockdevice_id, deployer.mountroot ++ [v.dataset_id]),
      hmem, rfl, v, hv, hvh, rfl, rfl⟩

theorem nonmanifestOf_pair (ns : NodeState) (l : List (PyStr × Dataset)) :
    nonmanifestOf (ns, if l = [] then none else some { datasets := l }) = l := by
  by_cases h : l = []
  · rw [if_pos h, h]
    rfl
  · rw [if_neg h]
    rfl

theorem snapshot_keyed_nodup {β : Type} (hostname : PyStr)
    (volumes : List BlockDeviceVolume)
    (hND : (volumes.map BlockDeviceVolume.dataset_id).Nodup)
    (b : Manifestation → Bool) (g : Manifestation → β) :
    (((((volumes.filter (fun v => v.host = some hostname)).map
        _manifestation_from_volume).filter b).map
      (fun m => (m.dataset.dataset_id, g m))).map Prod.fst).Nodup := by
  rw [List.map_map]
  have h2 : ((volumes.filter (fun v => v.host = some hostname)).map
      _manifestation_from_volume).map
      (Prod.fst ∘ fun m => (m.dataset.dataset_id, g m)) =
      (volumes.filter (fun v => v.host = some hostname)).map
        BlockDeviceVolume.dataset_id := by
    rw [List.map_map]
    rfl
  have hs1 : (((((volumes.filter (fun v => v.host = some hostname)).map
      _manifestation_from_volume).filter b).map
      (Prod.fst ∘ fun m => (m.dataset.dataset_id, g m)))).Sublist
      ((volumes.filter (fun v => v.host = some hostname)).map
        BlockDeviceVolume.dataset_id) := by
    rw [← h2]
    exact List.Sublist.map _ (List.filter_sublist _)
  have hs2 : (((volumes.filter (fun v => v.host = some hostname)).map
      BlockDeviceVolume.dataset_id)).Sublist
      (volumes.map BlockDeviceVolume.dataset_id) :=
    List.Sublist.map _ (List.filter_sublist volumes)
  exact List.Nodup.sublist (hs1.trans hs2) hND

theorem discover_state_components (deployer : BlockDeviceDeployer)
    (device_path : PyStr → FPath) (volumes : List BlockDeviceVolume)
    (partitions : List (FPath × FPath))
    (hND : (volumes.map BlockDeviceVolume.dataset_id).Nodup) :
    ((deployer.discover_state device_path volumes partitions).1.manifestations =
      ((volumes.filter (fun v => v.host = some deployer.hostname)).map
        (fun v => (v.dataset_id, _manifestation_from_volume v))).filter
        (fun p => ((volumes.filter (fun v => v.host = some deployer.hostname)).map
            _manifestation_from_volume).all (fun m =>
          decide (dictGet (deployer.mountroot ++ [m.dataset.dataset_id])
              (deployer._get_system_mounts device_path volumes partitions) =
            some m.dataset.dataset_id) || decide (p.1 ≠ m.dataset.dataset_id)))) ∧
    ((deployer.discover_state device_path volumes partitions).1.paths =
      (((volumes.filter (fun v => v.host = some deployer.hostname)).map
          _manifestation_from_volume).filter (fun m =>
        decide (dictGet (deployer.mountroot ++ [m.dataset.dataset_id])
            (deployer._get_system_mounts device_path volumes partitions) =
          some m.dataset.dataset_id))).map
        (fun m => (m.dataset.dataset_id,
          deployer.mountroot ++ [m.dataset.dataset_id]))) ∧
    (nonmanifestOf (deployer.discover_state device_path volumes partitions) =
      (volumes.filter (fun v => v.host = none)).map
        (fun v => (v.dataset_id, nmDataset v.dataset_id)) ++
      (((volumes.filter (fun v => v.host = some deployer.hostname)).map
          _manifestation_from_volume).filter (fun m =>
        ! decide (dictGet (deployer.mountroot ++ [m.dataset.dataset_id])
            (deployer._get_system_mounts device_path volumes partitions) =
          some m.dataset.dataset_id))).map
        (fun m => (m.dataset.dataset_id, nmDataset m.dataset.dataset_id))) := by
  have hm0 := discover_manifs0_eq deployer.hostname volumes hND
  have hn0 := discover_nonmanifest0_eq deployer.hostname volumes hND
  have hsnap : (dictInsertMany (fun v =>
      if v.host = some deployer.hostname
      then some (v.dataset_id, _manifestation_from_volume v) else none)
      volumes []).map Prod.snd =
      (volumes.filter (fun v => v.host = some deployer.hostname)).map
        _manifestation_from_volume := by
    rw [hm0, List.map_map]
    rfl
  have hidsnd : ((volumes.filter (fun v => v.host = some deployer.hostname)).map
      BlockDeviceVolume.dataset_id).Nodup :=
    List.Nodup.sublist (List.Sublist.map _ (List.filter_sublist volumes)) hND
  have hinj := volumes_id_injective hND
  refine ⟨?_, ?_, ?_⟩
  · unfold BlockDeviceDeployer.discover_state
    simp only []
    rw [hsnap, hm0,
      foldl_dictRemove_filter (fun (m : Manifestation) =>
        dictGet (deployer.mountroot ++ [m.dataset.dataset_id])
            (deployer._get_system_mounts device_path volumes partitions) =
          some m.dataset.dataset_id)
        (fun m => m.dataset.dataset_id)
        ((volumes.filter (fun v => v.host = some deployer.hostname)).map
          _manifestation_from_volume)]
  · unfold BlockDeviceDeployer.discover_state
    simp only []
    rw [hsnap,
      dictInsertMany_eq (fun (m : Manifestation) =>
        if dictGet (deployer.mountroot ++ [m.dataset.dataset_id])
              (deployer._get_system_mounts device_path volumes partitions) =
            some m.dataset.dataset_id
        then some (m.dataset.dataset_id,
          deployer.mountroot ++ [m.dataset.dataset_id]) else none)
        _ [] ?pnd ?pfresh, List.nil_append,
      filterMap_ite (fun (m : Manifestation) =>
        dictGet (deployer.mountroot ++ [m.dataset.dataset_id])
            (deployer._get_system_mounts device_path volumes partitions) =
          some m.dataset.dataset_id)
        (fun m => (m.dataset.dataset_id,
          deployer.mountroot ++ [m.dataset.dataset_id]))]
    case pfresh =>
      intro x hx q hq p hp
      exact absurd hp (List.not_mem_nil p)
    case pnd =>
      rw [filterMap_ite (fun (m : Manifestation) =>
        dictGet (deployer.mountroot ++ [m.dataset.dataset_id])
            (deployer._get_system_mounts device_path volumes partitions) =
          some m.dataset.dataset_id)
        (fun m => (m.dataset.dataset_id,
          deployer.mountroot ++ [m.dataset.dataset_id]))]
      exact snapshot_keyed_nodup deployer.hostname volumes hND _ _
  · unfold BlockDeviceDeployer.discover_state
    simp only []
    rw [nonmanifestOf_pair, hsnap, hn0,
      dictInsertMany_eq (fun (m : Manifestation) =>
        if dictGet (deployer.mountroot ++ [m.dataset.dataset_id])
              (deployer._get_system_mounts device_path volumes partitions) =
            some m.dataset.dataset_id
        then none
        else some (m.dataset.dataset_id, nmDataset m.dataset.dataset_id))
        _ _ ?nnd ?nfresh,
      filterMap_ite_not (fun (m : Manifestation) =>
        dictGet (deployer.mountroot ++ [m.dataset.dataset_id])
            (deployer._get_system_mounts device_path volumes partitions) =
          some m.dataset.dataset_id)
        (fun m => (m.dataset.dataset_id, nmDataset m.dataset.dataset_id))]
    case nfresh =>
      intro m hm q hq p hp
      obtain ⟨u, hu, hue⟩ := List.mem_map.mp hm
      rcases List.mem_filter.mp hu with ⟨hu1, hu2⟩
      obtain ⟨w, hw, hwe⟩ := List.mem_map.mp hp
      rcases List.mem_filter.mp hw with ⟨hw1, hw2⟩
      simp only [] at hq
      have hq1 : q.1 = m.dataset.dataset_id := by
        by_cases hP : dictGet (deployer.mountroot ++ [m.dataset.dataset_id])
            (deployer._get_system_mounts device_path volumes partitions) =
          some m.dataset.dataset_id
        · rw [if_pos hP] at hq
          exact Option.noConfusion hq
        · rw [if_neg hP] at hq
          rw [← Option.some.inj hq]
      have hp1 : p.1 = w.dataset_id := by rw [← hwe]
      rw [hp1, hq1, ← hue]
      intro he
      have hwu : w = u := hinj w hw1 u hu1 he
      rw [hwu] at hw2
      have hwn : u.host = none := by simpa using hw2
      have hun : u.host = some deployer.hostname := by simpa using hu2
      rw [hun] at hwn
      exact Option.noConfusion hwn
    case nnd =>
      rw [filterMap_ite_not (fun (m : Manifestation) =>
        dictGet (deployer.mountroot ++ [m.dataset.dataset_id])
            (deployer._get_system_mounts device_path volumes partitions) =
          some m.dataset.dataset_id)
        (fun m => (m.dataset.dataset_id, nmDataset m.dataset.dataset_id))]
      exact snapshot_keyed_nodup deployer.hostname volumes hND _ _

theorem dictGet_eq_none_of {α β : Type} [DecidableEq α] (k : α)
    (l : List (α × β)) (h : ∀ p ∈ l, p.1 ≠ k) : dictGet k l = none := by
  unfold dictGet
  rw [List.find?_eq_none.mpr ?hp]
  case hp =>
    intro p hp
    simpa using h p hp
  rfl

/-- Claim C2: for every provider volume list and host partition table
(with distinct dataset ids, distinct mountpoints, and device paths
separating distinct volumes attached here), `discover_state` reports a
volume attached to this deployer's hostname as a manifestation, with its
mount path `mountroot/dataset_id` recorded in `paths`, exactly when that
expected mountpath is listed in the partition table against the volume's
device; a volume attached here whose expected mount is absent from the
partition table is reported in the non-manifest datasets and not in the
manifestations; every unattached volume is reported in the non-manifest
datasets; and a volume attached to a different host appears in none of
the three maps. -/
theorem discover_state_spec (deployer : BlockDeviceDeployer)
    (device_path : PyStr → FPath) (volumes : List BlockDeviceVolume)
    (partitions : List (FPath × FPath))
    (hND : (volumes.map BlockDeviceVolume.dataset_id).Nodup)
    (hMP : (partitions.map Prod.snd).Nodup)
    (hDP : ∀ u ∈ volumes, ∀ w ∈ volumes, u.host = some deployer.hostname →
      w.host = some deployer.hostname →
      device_path u.blockdevice_id = device_path w.blockdevice_id → u = w)
    (v : BlockDeviceVolume) (hv : v ∈ volumes) :
    (v.host = some deployer.hostname →
      (device_path v.blockdevice_id, deployer.mountroot ++ [v.dataset_id]) ∈
        partitions →
      dictGet v.dataset_id
          (deployer.discover_state device_path volumes
            partitions).1.manifestations =
        some (_manifestation_from_volume v) ∧
      dictGet v.dataset_id
          (deployer.discover_state device_path volumes partitions).1.paths =
        some (deployer.mountroot ++ [v.dataset_id]) ∧
      dictGet v.dataset_id
          (nonmanifestOf (deployer.discover_state device_path volumes
            partitions)) = none) ∧
    (v.host = some deployer.hostname →
      (device_path v.blockdevice_id, deployer.mountroot ++ [v.dataset_id]) ∉
        partitions →
      dictGet v.dataset_id
          (deployer.discover_state device_path volumes
            partitions).1.manifestations = none ∧
      dictGet v.dataset_id
          (deployer.discover_state device_path volumes partitions).1.paths =
        none ∧
      dictGet v.dataset_id
          (nonmanifestOf (deployer.discover_state device_path volumes
            partitions)) = some (nmDataset v.dataset_id)) ∧
    (v.host = none →
      dictGet v.dataset_id
          (deployer.discover_state device_path volumes
            partitions).1.manifestations = none ∧
      dictGet v.dataset_id
          (deployer.discover_state device_path volumes partitions).1.paths =
        none ∧
      dictGet v.dataset_id
          (nonmanifestOf (deployer.discover_state device_path volumes
            partitions)) = some (nmDataset v.dataset_id)) ∧
    (∀ h, v.host = some h → h ≠ deployer.hostname →
      dictGet v.dataset_id
          (deployer.discover_state device_path volumes
            partitions).1.manifestations = none ∧
      dictGet v.dataset_id
          (deployer.discover_state device_path volumes partitions).1.paths =
        none ∧
      dictGet v.dataset_id
          (nonmanifestOf (deployer.discover_state device_path volumes
            partitions)) = none) := by
  obtain ⟨hM, hP, hN⟩ :=
    discover_state_components deployer device_path volumes partitions hND
  have hinj := volumes_id_injective hND
  have hidsnd : ((volumes.filter (fun u => u.host = some deployer.hostname)).map
      BlockDeviceVolume.dataset_id).Nodup :=
    List.Nodup.sublist (List.Sublist.map _ (List.filter_sublist volumes)) hND
  have hbk : (((volumes.filter (fun u => u.host = some deployer.hostname)).map
      (fun u => (u.dataset_id, _manifestation_from_volume u))).map
        Prod.fst) =
      (volumes.filter (fun u => u.host = some deployer.hostname)).map
        BlockDeviceVolume.dataset_id := by
    rw [List.map_map]
    rfl
  have hbknd : (((volumes.filter (fun u => u.host = some deployer.hostname)).map
      (fun u => (u.dataset_id, _manifestation_from_volume u))).map
        Prod.fst).Nodup := by
    rw [hbk]
    exact hidsnd
  have hpknd := snapshot_keyed_nodup deployer.hostname volumes hND
    (fun m => decide (dictGet (deployer.mountroot ++ [m.dataset.dataset_id])
        (deployer._get_system_mounts device_path volumes partitions) =
      some m.dataset.dataset_id))
    (fun m => deployer.mountroot ++ [m.dataset.dataset_id])
  have hbadknd := snapshot_keyed_nodup deployer.hostname volumes hND
    (fun m => ! decide (dictGet (deployer.mountroot ++ [m.dataset.dataset_id])
        (deployer._get_system_mounts device_path volumes partitions) =
      some m.dataset.dataset_id))
    (fun m => nmDataset m.dataset.dataset_id)
  have hu0none : ∀ hostOk : Option PyStr, v.host = hostOk → hostOk ≠ none →
      dictGet v.dataset_id ((volumes.filter (fun u => u.host = none)).map
        (fun u => (u.dataset_id, nmDataset u.dataset_id))) = none := by
    intro hostOk hhk hne
    refine dictGet_eq_none_of _ _ ?_
    intro p hp
    obtain ⟨w, hw, hwe⟩ := List.mem_map.mp hp
    rcases List.mem_filter.mp hw with ⟨hw1, hw2⟩
    rw [← hwe]
    intro he
    have hwv : w = v := hinj w hw1 v hv he
    have hwn : w.host = none := by simpa using hw2
    rw [hwv, hhk] at hwn
    exact hne hwn
  refine ⟨?caseA, ?caseB, ?caseC, ?caseD⟩
  case caseA =>
    intro hvh hmem
    have hvm : v ∈ volumes.filter (fun u => u.host = some deployer.hostname) :=
      List.mem_filter.mpr ⟨hv, by simpa using hvh⟩
    have hproper := (discover_proper_iff deployer device_path volumes partitions
      hND hMP hDP v hv hvh).mpr hmem
    have hbase_get : dictGet v.dataset_id
        ((volumes.filter (fun u => u.host = some deployer.hostname)).map
          (fun u => (u.dataset_id, _manifestation_from_volume u))) =
        some (_manifestation_from_volume v) :=
      (dictGet_eq_some_iff_mem hbknd).mpr (List.mem_map.mpr ⟨v, hvm, rfl⟩)
    refine ⟨?_, ?_, ?_⟩
    · rw [hM, dictGet_filter_of_nodup hbknd]
      simp only [hbase_get]
      rw [if_pos ?hcond]
      case hcond =>
        refine List.all_eq_true.mpr ?_
        intro m hm
        obtain ⟨u, hu, hue⟩ := List.mem_map.mp hm
        subst hue
        rcases List.mem_filter.mp hu with ⟨hu1, hu2⟩
        by_cases hk : v.dataset_id = u.dataset_id
        · have huv : u = v := hinj u hu1 v hv hk.symm
          subst huv
          exact Bool.or_eq_true_iff.mpr (Or.inl (decide_eq_true hproper))
        · exact Bool.or_eq_true_iff.mpr (Or.inr (decide_eq_true hk))
    · rw [hP]
      refine (dictGet_eq_some_iff_mem hpknd).mpr ?_
      refine List.mem_map.mpr ⟨_manifestation_from_volume v, ?_, rfl⟩
      refine List.mem_filter.mpr ⟨List.mem_map.mpr ⟨v, hvm, rfl⟩, ?_⟩
      exact decide_eq_true hproper
    · rw [hN, dictGet_append]
      rw [hu0none (some deployer.hostname) hvh (fun h => Option.noConfusion h)]
      refine dictGet_eq_none_of _ _ ?_
      intro p hp
      obtain ⟨m, hm, hme⟩ := List.mem_map.mp hp
      rcases List.mem_filter.mp hm with ⟨hm1, hm2⟩
      obtain ⟨u, hu, hue⟩ := List.mem_map.mp hm1
      subst hue
      rcases List.mem_filter.mp hu with ⟨hu1, hu2⟩
      rw [← hme]
      intro he
      have huv : u = v := hinj u hu1 v hv he
      subst huv
      have : ¬ (dictGet (deployer.mountroot ++ [u.dataset_id])
          (deployer._get_system_mounts device_path volumes partitions) =
        some u.dataset_id) := by simpa using hm2
      exact this hproper
  case caseB =>
    intro hvh hmem
    have hvm : v ∈ volumes.filter (fun u => u.host = some deployer.hostname) :=
      List.mem_filter.mpr ⟨hv, by simpa using hvh⟩
    have hnp : ¬ (dictGet (deployer.mountroot ++ [v.dataset_id])
        (deployer._get_system_mounts device_path volumes partitions) =
      some v.dataset_id) := fun hp =>
      hmem ((discover_proper_iff deployer device_path volumes partitions
        hND hMP hDP v hv hvh).mp hp)
    have hbase_get : dictGet v.dataset_id
        ((volumes.filter (fun u => u.host = some deployer.hostname)).map
          (fun u => (u.dataset_id, _manifestation_from_volume u))) =
        some (_manifestation_from_volume v) :=
      (dictGet_eq_some_iff_mem hbknd).mpr (List.mem_map.mpr ⟨v, hvm, rfl⟩)
    refine ⟨?_, ?_, ?_⟩
    · rw [hM, dictGet_filter_of_nodup hbknd]
      simp only [hbase_get]
      rw [if_neg ?hcond]
      case hcond =>
        intro hC
        have := List.all_eq_true.mp hC (_manifestation_from_volume v)
          (List.mem_map.mpr ⟨v, hvm, rfl⟩)
        rcases Bool.or_eq_true_iff.mp this with h1 | h2
        · exact hnp (of_decide_eq_true h1)
        · exact (of_decide_eq_true h2) rfl
    · rw [hP]
      refine dictGet_eq_none_of _ _ ?_
      intro p hp
      obtain ⟨m, hm, hme⟩ := List.mem_map.mp hp
      rcases List.mem_filter.mp hm with ⟨hm1, hm2⟩
      obtain ⟨u, hu, hue⟩ := List.mem_map.mp hm1
      subst hue
      rcases List.mem_filter.mp hu with ⟨hu1, hu2⟩
      rw [← hme]
      intro he
      have huv : u = v := hinj u hu1 v hv he
      subst huv
      exact hnp (of_decide_eq_true hm2)
    · rw [hN, dictGet_append]
      rw [hu0none (some deployer.hostname) hvh (fun h => Option.noConfusion h)]
      refine (dictGet_eq_some_iff_mem hbadknd).mpr ?_
      refine List.mem_map.mpr ⟨_manifestation_from_volume v, ?_, rfl⟩
      refine List.mem_filter.mpr ⟨List.mem_map.mpr ⟨v, hvm, rfl⟩, ?_⟩
      simpa using hnp
  case caseC =>
    intro hvn
    have hnotatt : ∀ u ∈ volumes.filter
        (fun u => u.host = some deployer.hostname), u.dataset_id ≠ v.dataset_id := by
      intro u hu he
      rcases List.mem_filter.mp hu with ⟨hu1, hu2⟩
      have huv : u = v := hinj u hu1 v hv he
      have : u.host = some deployer.hostname := by simpa using hu2
      rw [huv, hvn] at this
      exact Option.noConfusion this
    refine ⟨?_, ?_, ?_⟩
    · rw [hM]
      refine dictGet_eq_none_of _ _ ?_
      intro p hp
      have hp2 := List.mem_of_mem_filter hp
      obtain ⟨u, hu, hue⟩ := List.mem_map.mp hp2
      rw [← hue]
      exact hnotatt u hu
    · rw [hP]
      refine dictGet_eq_none_of _ _ ?_
      intro p hp
      obtain ⟨m, hm, hme⟩ := List.mem_map.mp hp
      rcases List.mem_filter.mp hm with ⟨hm1, hm2⟩
      obtain ⟨u, hu, hue⟩ := List.mem_map.mp hm1
      subst hue
      rw [← hme]
      exact hnotatt u hu
    · rw [hN, dictGet_append]
      have hvm : v ∈ volumes.filter (fun u => u.host = none) :=
        List.mem_filter.mpr ⟨hv, by simpa using hvn⟩
      have hu0k : (((volumes.filter (fun u => u.host = none)).map
          (fun u => (u.dataset_id, nmDataset u.dataset_id))).map
            Prod.fst).Nodup := by
        have hk : (((volumes.filter (fun u => u.host = none)).map
            (fun u => (u.dataset_id, nmDataset u.dataset_id))).map
              Prod.fst) =
            (volumes.filter (fun u => u.host = none)).map
              BlockDeviceVolume.dataset_id := by
          rw [List.map_map]
          rfl
        rw [hk]
        exact List.Nodup.sublist
          (List.Sublist.map _ (List.filter_sublist volumes)) hND
      have h0 : dictGet v.dataset_id ((volumes.filter (fun u => u.host = none)).map
          (fun u => (u.dataset_id, nmDataset u.dataset_id))) =
          some (nmDataset v.dataset_id) :=
        (dictGet_eq_some_iff_mem hu0k).mpr (List.mem_map.mpr ⟨v, hvm, rfl⟩)
      simp only [h0]
  case caseD =>
    intro h hvh hne
    have hnotatt : ∀ u ∈ volumes.filter
        (fun u => u.host = some deployer.hostname), u.dataset_id ≠ v.dataset_id := by
      intro u hu he
      rcases List.mem_filter.mp hu with ⟨hu1, hu2⟩
      have huv : u = v := hinj u hu1 v hv he
      have hh : u.host = some deployer.hostname := by simpa using hu2
      rw [huv, hvh] at hh
      exact hne (Option.some.inj hh)
    refine ⟨?_, ?_, ?_⟩
    · rw [hM]
      refine dictGet_eq_none_of _ _ ?_
      intro p hp
      have hp2 := List.mem_of_mem_filter hp
      obtain ⟨u, hu, hue⟩ := List.mem_map.mp hp2
      rw [← hue]
      exact hnotatt u hu
    · rw [hP]
      refine dictGet_eq_none_of _ _ ?_
      intro p hp
      obtain ⟨m, hm, hme⟩ := List.mem_map.mp hp
      rcases List.mem_filter.mp hm with ⟨hm1, hm2⟩
      obtain ⟨u, hu, hue⟩ := List.mem_map.mp hm1
      subst hue
      rw [← hme]
      exact hnotatt u hu
    · rw [hN, dictGet_append]
      rw [hu0none (some h) hvh (fun hx => Option.noConfusion hx)]
      refine dictGet_eq_none_of _ _ ?_
      intro p hp
      obtain ⟨m, hm, hme⟩ := List.mem_map.mp hp
      rcases List.mem_filter.mp hm with ⟨hm1, hm2⟩
      obtain ⟨u, hu, hue⟩ := List.mem_map.mp hm1
      subst hue
      rw [← hme]
      exact hnotatt u hu

/-- Concrete device-path function for the discovery witness. -/
def wC2dp : PyStr → FPath := fun i => [i]

/-- Witness volume attached here and properly mounted. -/
def wC2vA : BlockDeviceVolume :=
  { blockdevice_id := "bA".toList, size := 5,
    host := some "node1".toList, dataset_id := "a".toList }

/-- Witness volume attached here but not mounted. -/
def wC2vB : BlockDeviceVolume :=
  { blockdevice_id := "bB".toList, size := 6,
    host := some "node1".toList, dataset_id := "b".toList }

/-- Witness volume not attached anywhere. -/
def wC2vU : BlockDeviceVolume :=
  { blockdevice_id := "bU".toList, size := 7,
    host := none, dataset_id := "u".toList }

/-- Witness volume attached to another host. -/
def wC2vO : BlockDeviceVolume :=
  { blockdevice_id := "bO".toList, size := 8,
    host := some "other".toList, dataset_id := "o".toList }

/-- Witness provider listing. -/
def wC2volumes : List BlockDeviceVolume := [wC2vA, wC2vB, wC2vU, wC2vO]

/-- Witness partition table: only the first volume's expected mount. -/
def wC2partitions : List (FPath × FPath) :=
  [(["bA".toList], ["flocker".toList, "a".toList])]

theorem discover_state_spec_witness :
    ((wC2volumes.map BlockDeviceVolume.dataset_id).Nodup ∧
      (wC2partitions.map Prod.snd).Nodup) ∧
    dictGet "a".toList
        (exampleDeployer.discover_state wC2dp wC2volumes
          wC2partitions).1.manifestations =
      some (_manifestation_from_volume wC2vA) ∧
    dictGet "a".toList
        (exampleDeployer.discover_state wC2dp wC2volumes
          wC2partitions).1.paths =
      some ["flocker".toList, "a".toList] ∧
    dictGet "b".toList
        (exampleDeployer.discover_state wC2dp wC2volumes
          wC2partitions).1.manifestations = none ∧
    dictGet "b".toList
        (nonmanifestOf (exampleDeployer.discover_state wC2dp wC2volumes
          wC2partitions)) = some (nmDataset "b".toList) ∧
    dictGet "u".toList
        (nonmanifestOf (exampleDeployer.discover_state wC2dp wC2volumes
          wC2partitions)) = some (nmDataset "u".toList) ∧
    dictGet "o".toList
        (exampleDeployer.discover_state wC2dp wC2volumes
          wC2partitions).1.manifestations = none ∧
    dictGet "o".toList
        (nonmanifestOf (exampleDeployer.discover_state wC2dp wC2volumes
          wC2partitions)) = none :=
  ⟨⟨by decide, by decide⟩,
   (((discover_state_spec exampleDeployer wC2dp wC2volumes wC2partitions
      (by decide) (by decide) (by decide) wC2vA (by decide)).1
      (by decide) (by decide)).1),
   (((discover_state_spec exampleDeployer wC2dp wC2volumes wC2partitions
      (by decide) (by decide) (by decide) wC2vA (by decide)).1
      (by decide) (by decide)).2.1),
   (((discover_state_spec exampleDeployer wC2dp wC2volumes wC2partitions
      (by decide) (by decide) (by decide) wC2vB (by decide)).2.1
      (by decide) (by decide)).1),
   (((discover_state_spec exampleDeployer wC2dp wC2volumes wC2partitions
      (by decide) (by decide) (by decide) wC2vB (by decide)).2.1
      (by decide) (by decide)).2.2),
   (((discover_state_spec exampleDeployer wC2dp wC2volumes wC2partitions
      (by decide) (by decide) (by decide) wC2vU (by decide)).2.2.1
      (by decide)).2.2),
   (((discover_state_spec exampleDeployer wC2dp wC2volumes wC2partitions
      (by decide) (by decide) (by decide) wC2vO (by decide)).2.2.2
      "other".toList (by decide) (by decide)).1),
   (((discover_state_spec exampleDeployer wC2dp wC2volumes wC2partitions
      (by decide) (by decide) (by decide) wC2vO (by decide)).2.2.2
      "other".toList (by decide) (by decide)).2.2)⟩

end Flocker
